import Mathlib

/-!
Feed parsing of goread (`goapp/utils.go`).


A shallow embedding of `ParseAtomDate`, `ParseFeed` and `parseFix` from
`goapp/utils.go`, followed by theorems about them.

What the Go code obtains from other packages is collected in `Env`:
the three XML decoders (`encoding/xml` applied to `atom.Feed`, `rssgo.Rss`
and `RDF`), `time.Parse`, `rssgo.ParseRssDate`, `Sanitize`,
`html.UnescapeString`, `url.Parse`, `(*url.URL).String` and `time.Now`.
`c.Errorf` is modelled by appending a `Diag` to a log, and every call of
`time.Now` consumes the next reading of the clock.

A Go slice of story pointers is a `List Story`; the `nil` slice is `[]`
(`ParseFeed` never builds an empty slice that is not `nil`).  A `*Feed` is an
`Option Feed`.
-/

namespace Goread

/-! ## `time.Time` -/

/-- Go `time.Time`: seconds and nanoseconds since January 1, year 1,
00:00:00 UTC, and a location (`none` is the `nil` location, UTC; `some o` a
fixed zone `o` seconds east of UTC). -/
structure Time where
  sec : Int := 0
  nsec : Int := 0
  loc : Option Int := none
deriving DecidableEq

/-- The zero value `time.Time{}`. -/
def Time.zero : Time := {}

instance : Inhabited Time := ⟨Time.zero⟩

/-- Constant `secondsPerDay` of package `time`. -/
def secondsPerDay : Int := 86400

/-- Constant `unixToInternal` of package `time`. -/
def unixToInternal : Int :=
  (1969 * 365 + 1969 / 4 - 1969 / 100 + 1969 / 400) * secondsPerDay

/-- Constant `internalToUnix` of package `time`. -/
def internalToUnix : Int := -unixToInternal

/-- Two's complement wrap-around of `int64` arithmetic. -/
def wrapInt64 (x : Int) : Int := (x + 2 ^ 63) % 2 ^ 64 - 2 ^ 63

/-- `func (t Time) Unix() int64`: `t.sec + internalToUnix`. -/
def Time.Unix (t : Time) : Int := wrapInt64 (t.sec + internalToUnix)

/-! ## `net/url` -/

/-- Go `url.Userinfo`. -/
structure Userinfo where
  username : String := ""
  password : String := ""
  passwordSet : Bool := false
deriving DecidableEq

/-- Go `url.URL`. -/
structure URL where
  Scheme : String := ""
  Opaque : String := ""
  User : Option Userinfo := none
  Host : String := ""
  Path : String := ""
  RawQuery : String := ""
  Fragment : String := ""
deriving DecidableEq

/-! ## Decoded dialect trees (the fields `ParseFeed` reads) -/

/-- `atom.Link`. -/
structure AtomLink where
  Rel : String := ""
  Href : String := ""
deriving DecidableEq

/-- `atom.Person`. -/
structure AtomPerson where
  Name : String := ""
deriving DecidableEq

/-- `atom.Text`. -/
structure AtomText where
  Body : String := ""
deriving DecidableEq

/-- `atom.Entry`. -/
structure AtomEntry where
  Title : String := ""
  ID : String := ""
  Link : List AtomLink := []
  Published : String := ""
  Updated : String := ""
  Author : Option AtomPerson := none
  Content : Option AtomText := none
deriving DecidableEq

/-- `atom.Feed`. -/
structure AtomFeed where
  Title : String := ""
  Link : List AtomLink := []
  Updated : String := ""
  Entry : List AtomEntry := []
deriving DecidableEq

/-- `rssgo.Guid`. -/
structure RssGuid where
  Guid : String := ""
deriving DecidableEq

/-- `rssgo.Item`. -/
structure RssItem where
  Title : String := ""
  Link : String := ""
  Description : String := ""
  Content : String := ""
  Author : String := ""
  Guid : Option RssGuid := none
  PubDate : String := ""
  Date : String := ""
  Published : String := ""
deriving DecidableEq

/-- `rssgo.Rss`. -/
structure Rss where
  Title : String := ""
  Link : String := ""
  LastBuildDate : String := ""
  PubDate : String := ""
  Items : List RssItem := []
deriving DecidableEq

/-- The channel block of `RDF`. -/
structure RdfChannel where
  Title : String := ""
  Link : String := ""
  Date : String := ""
deriving DecidableEq

/-- An item of `RDF`. -/
structure RdfItem where
  About : String := ""
  Title : String := ""
  Link : String := ""
  Creator : String := ""
  Description : String := ""
  Date : String := ""
deriving DecidableEq

/-- The `RDF` tree; `Channel` is a pointer in the source. -/
structure RDF where
  Channel : Option RdfChannel := none
  Item : List RdfItem := []
deriving DecidableEq

/-! ## Canonical model -/

/-- `Feed`, with the fields `ParseFeed` assigns. -/
structure Feed where
  Title : String := ""
  Link : String := ""
  Updated : Time := Time.zero
deriving DecidableEq

/-- `Story`, with the fields `ParseFeed` and `parseFix` assign.  The field
`content` is unexported in the source. -/
structure Story where
  Id : String := ""
  Title : String := ""
  Link : String := ""
  Author : String := ""
  Published : Time := Time.zero
  Updated : Time := Time.zero
  Date : Int := 0
  content : String := ""
  Summary : String := ""
deriving DecidableEq

/-! ## Diagnostics and clock -/

/-- One `c.Errorf` call of `ParseFeed`, with its arguments. -/
inductive Diag where
  /-- `"rss feed requires title or description"` -/
  | rssRequiresTitle
  /-- `"could not parse date: %v, %v, %v"` -/
  | rssItemDate (pubDate date published : String)
  /-- `"could not parse date: %v"` on an RDF channel or item date -/
  | rdfDate (date : String)
  /-- `"rdf error, no story id: %v"` -/
  | rdfNoStoryId (item : RdfItem)
  /-- `"atom parse error: %s"` -/
  | atomParseError (msg : String)
  /-- `"xml parse error: %s"` -/
  | xmlParseError (msg : String)
  /-- `"rdf parse error: %s"` -/
  | rdfParseError (msg : String)
deriving DecidableEq

/-- What a run has done so far to the outside: the diagnostics emitted, in
order, and the number of `time.Now` readings taken. -/
structure St where
  log : List Diag := []
  clock : Nat := 0
deriving DecidableEq

/-- `c.Errorf(...)`. -/
def St.Errorf (σ : St) (d : Diag) : St := { σ with log := σ.log ++ [d] }

/-- The raw document, `[]byte`. -/
abbrev Bytes := List UInt8

/-- The collaborators of `ParseFeed`. -/
structure Env where
  /-- `xml.NewDecoder` with `CharsetReader`, decoding into `atom.Feed` -/
  decodeAtom : Bytes → Except String AtomFeed
  /-- the same into `rssgo.Rss` -/
  decodeRss : Bytes → Except String Rss
  /-- the same into `RDF` -/
  decodeRdf : Bytes → Except String RDF
  /-- `time.Parse(layout, value)`; `none` when it returns an error -/
  timeParse : String → String → Option Time
  /-- `rssgo.ParseRssDate`; `none` when it returns an error -/
  ParseRssDate : String → Option Time
  /-- `Sanitize`: sanitized markup and plain-text summary -/
  Sanitize : String → String × String
  /-- `html.UnescapeString` -/
  UnescapeString : String → String
  /-- `url.Parse`; `none` when it returns an error -/
  urlParse : String → Option URL
  /-- `(*url.URL).String` -/
  urlString : URL → String
  /-- `time.Now`: the k-th reading taken during the call -/
  Now : Nat → Time

/-- `time.Now()`: the next clock reading. -/
def St.Now (env : Env) (σ : St) : Time × St :=
  (env.Now σ.clock, { σ with clock := σ.clock + 1 })

/-- The collaborators `env` with other decoders. -/
def Env.withDecoders (env : Env) (dA : Bytes → Except String AtomFeed)
    (dR : Bytes → Except String Rss) (dD : Bytes → Except String RDF) : Env :=
  { env with decodeAtom := dA, decodeRss := dR, decodeRdf := dD }

/-! ## The source functions -/

/-- `const atomDateFormat`. -/
def atomDateFormat : String := "2006-01-02T15:04:05-07:00"

/-- `ParseAtomDate`. -/
def ParseAtomDate (env : Env) (d : String) : Time :=
  match env.timeParse atomDateFormat d with
  | none => Time.zero
  | some t => t

/-- `parseFix`, on one story: the body of its loop. -/
def parseFixStory (env : Env) (s : Story) : Story :=
  if s.Link = "" then
    match env.urlParse s.Id with
    | some u => { s with Link := env.urlString u }
    | none => s
  else s

/-- `parseFix`. -/
def parseFix (env : Env) (f : Option Feed) (ss : List Story) :
    Option Feed × List Story :=
  (f, ss.map (parseFixStory env))

/-- The outcome of `ParseFeed`: the two returned values, the diagnostics
emitted and the number of clock readings taken. -/
structure Result where
  feed : Option Feed
  stories : List Story
  log : List Diag
  clock : Nat
deriving DecidableEq

/-- `return parseFix(&f, s)`. -/
def returnFix (env : Env) (f : Feed) (s : List Story) (σ : St) : Result :=
  let r := parseFix env (some f) s
  { feed := r.1, stories := r.2, log := σ.log, clock := σ.clock }

/-- `return nil, nil`. -/
def returnNil (σ : St) : Result :=
  { feed := none, stories := [], log := σ.log, clock := σ.clock }

/-- The feed-link loop of the Atom branch: the first link whose `Rel` is not
`"self"` sets `f.Link` and ends the loop. -/
def atomFeedLink : List AtomLink → String → String
  | [], cur => cur
  | l :: rest, cur => if l.Rel ≠ "self" then l.Href else atomFeedLink rest cur

/-- The feed header of the Atom branch. -/
def atomFeed (env : Env) (a : AtomFeed) : Feed :=
  let f : Feed := {}
  let f := { f with Title := a.Title }
  let f := if a.Updated ≠ "" then { f with Updated := ParseAtomDate env a.Updated } else f
  { f with Link := atomFeedLink a.Link f.Link }

/-- The body of the entry loop of the Atom branch. -/
def atomEntry (env : Env) (i : AtomEntry) : Story :=
  let st : Story :=
    { Id := i.ID, Title := i.Title,
      Published := ParseAtomDate env i.Published,
      Updated := ParseAtomDate env i.Updated }
  let st := match i.Link with
    | l :: _ => { st with Link := l.Href }
    | [] => st
  let st := match i.Author with
    | some p => { st with Author := p.Name }
    | none => st
  let st := match i.Content with
    | some c => { st with content := (env.Sanitize c.Body).1, Summary := (env.Sanitize c.Body).2 }
    | none => st
  { st with Date := st.Updated.Unix }

/-- The entry loop of the Atom branch, appending to `s`. -/
def atomEntries (env : Env) : List AtomEntry → List Story → List Story
  | [], s => s
  | i :: rest, s => atomEntries env rest (s ++ [atomEntry env i])

/-- The feed header of the RSS branch. -/
def rssFeed (env : Env) (r : Rss) : Feed :=
  let f : Feed := {}
  let f := { f with Title := r.Title }
  let f := { f with Link := r.Link }
  match env.ParseRssDate r.LastBuildDate with
  | some t => { f with Updated := t }
  | none =>
    match env.ParseRssDate r.PubDate with
    | some t => { f with Updated := t }
    | none => f

/-- The date chain of an RSS item: `PubDate`, then `Date`, then `Published`,
then a diagnostic and `time.Now()`. -/
def rssItemDate (env : Env) (σ : St) (i : RssItem) : Time × St :=
  match env.ParseRssDate i.PubDate with
  | some t => (t, σ)
  | none =>
    match env.ParseRssDate i.Date with
    | some t => (t, σ)
    | none =>
      match env.ParseRssDate i.Published with
      | some t => (t, σ)
      | none => St.Now env (σ.Errorf (.rssItemDate i.PubDate i.Date i.Published))

/-- The body of the item loop of the RSS branch after the title has been
settled: content, id and dates.  `i` is the loop variable, whose `Title` the
title step may have overwritten. -/
def rssItemRest (env : Env) (σ : St) (i : RssItem) (st : Story) : Story × St :=
  let st :=
    if i.Content ≠ "" then
      { st with content := (env.Sanitize i.Content).1, Summary := (env.Sanitize i.Content).2 }
    else if i.Title ≠ "" ∧ i.Description ≠ "" then
      { st with content := (env.Sanitize i.Description).1,
                Summary := (env.Sanitize i.Description).2 }
    else st
  let st := match i.Guid with
    | some g => { st with Id := g.Guid }
    | none => { st with Id := i.Title }
  let (t, σ) := rssItemDate env σ i
  let st := { st with Published := t }
  let st := { st with Updated := t }
  let st := { st with Date := t.Unix }
  (st, σ)

/-- The body of the item loop of the RSS branch; `none` is the
`return nil, nil` of an item without title and description. -/
def rssItem (env : Env) (σ : St) (i : RssItem) : Option Story × St :=
  let st : Story := { Link := i.Link, Author := i.Author }
  if i.Title ≠ "" then
    let r := rssItemRest env σ i { st with Title := i.Title }
    (some r.1, r.2)
  else if i.Description ≠ "" then
    let r := rssItemRest env σ { i with Title := i.Description } st
    (some r.1, r.2)
  else
    (none, σ.Errorf .rssRequiresTitle)

/-- The item loop of the RSS branch, appending to `s`; `none` when an item
made the function return `nil, nil`. -/
def rssItems (env : Env) : List RssItem → List Story → St → Option (List Story) × St
  | [], s, σ => (some s, σ)
  | i :: rest, s, σ =>
    match rssItem env σ i with
    | (some st, σ') => rssItems env rest (s ++ [st]) σ'
    | (none, σ') => (none, σ')

/-- The feed header of the RDF branch. -/
def rdfFeed (env : Env) (σ : St) (rdf : RDF) : Feed × St :=
  let f : Feed := {}
  match rdf.Channel with
  | some ch =>
    let f := { f with Title := ch.Title }
    let f := { f with Link := ch.Link }
    match env.ParseRssDate ch.Date with
    | some t => ({ f with Updated := t }, σ)
    | none => (f, σ.Errorf (.rdfDate ch.Date))
  | none => (f, σ)

/-- The date step of an RDF item: a date that parses is stored in
`Published`, `Updated` and `Date`; otherwise a diagnostic is emitted and the
story is left as it is. -/
def rdfItemDate (env : Env) (σ : St) (i : RdfItem) (st : Story) : Story × St :=
  match env.ParseRssDate i.Date with
  | some t =>
    let st := { st with Published := t }
    let st := { st with Updated := t }
    let st := { st with Date := t.Unix }
    (st, σ)
  | none => (st, σ.Errorf (.rdfDate i.Date))

/-- The body of the item loop of the RDF branch; `none` is the
`return nil, nil` of an item without `about` and link. -/
def rdfItem (env : Env) (σ : St) (i : RdfItem) : Option Story × St :=
  let st : Story := { Id := i.About, Title := i.Title, Link := i.Link, Author := i.Creator }
  let st := { st with content := (env.Sanitize (env.UnescapeString i.Description)).1,
                      Summary := (env.Sanitize (env.UnescapeString i.Description)).2 }
  if i.About = "" ∧ i.Link ≠ "" then
    let r := rdfItemDate env σ i { st with Id := i.Link }
    (some r.1, r.2)
  else if i.About = "" ∧ i.Link = "" then
    (none, σ.Errorf (.rdfNoStoryId i))
  else
    let r := rdfItemDate env σ i st
    (some r.1, r.2)

/-- The item loop of the RDF branch, appending to `s`. -/
def rdfItems (env : Env) : List RdfItem → List Story → St → Option (List Story) × St
  | [], s, σ => (some s, σ)
  | i :: rest, s, σ =>
    match rdfItem env σ i with
    | (some st, σ') => rdfItems env rest (s ++ [st]) σ'
    | (none, σ') => (none, σ')

/-- The Atom branch of `ParseFeed`, entered when the Atom decode succeeded. -/
def atomBranch (env : Env) (a : AtomFeed) : Result :=
  returnFix env (atomFeed env a) (atomEntries env a.Entry []) {}

/-- The RSS branch of `ParseFeed`, entered when the RSS decode succeeded. -/
def rssBranch (env : Env) (r : Rss) : Result :=
  match rssItems env r.Items [] {} with
  | (some s, σ) => returnFix env (rssFeed env r) s σ
  | (none, σ) => returnNil σ

/-- The RDF branch of `ParseFeed`, entered when the RDF decode succeeded. -/
def rdfBranch (env : Env) (rdf : RDF) : Result :=
  let (f, σ) := rdfFeed env {} rdf
  match rdfItems env rdf.Item [] σ with
  | (some s, σ) => returnFix env f s σ
  | (none, σ) => returnNil σ

/-- `ParseFeed`. -/
def ParseFeed (env : Env) (b : Bytes) : Result :=
  match env.decodeAtom b with
  | .ok a => atomBranch env a
  | .error atomerr =>
    match env.decodeRss b with
    | .ok r => rssBranch env r
    | .error rsserr =>
      match env.decodeRdf b with
      | .ok rdf => rdfBranch env rdf
      | .error rdferr =>
        let σ : St := {}
        let σ := σ.Errorf (.atomParseError atomerr)
        let σ := σ.Errorf (.xmlParseError rsserr)
        let σ := σ.Errorf (.rdfParseError rdferr)
        returnNil σ

/-! ## Sample collaborators and documents

Concrete collaborators on which the functions above can be evaluated.  Each
one agrees with the Go function it stands for on the inputs used below. -/

/-- `time.Parse` on the one pair used below: the Atom layout and the instant
2020-01-01T00:00:00Z. -/
def sampleTimeParse (layout value : String) : Option Time :=
  if layout = atomDateFormat ∧ value = "2020-01-01T00:00:00+00:00" then
    some { sec := 63713433600, loc := some 0 }
  else none

/-- `rssgo.ParseRssDate` on two RFC 1123 dates; any other string used below
(the empty string, `"yesterday"`) is not a date. -/
def sampleParseRssDate (d : String) : Option Time :=
  if d = "Mon, 02 Jan 2006 15:04:05 +0000" then some { sec := 63271811045, loc := some 0 }
  else if d = "Tue, 03 Jan 2006 15:04:05 +0000" then some { sec := 63271897445, loc := some 0 }
  else none

/-- A sanitizer for text without markup: it is returned as it is, also as
the summary. -/
def sampleSanitize (s : String) : String × String := (s, s)

/-- `url.Parse` on strings of letters, digits and spaces: such a string has
no scheme, host, query or fragment and is the path; `http://example.com/1`
is parsed too.  Other strings are outside this fragment and are reported as
errors, as `url.Parse` does for `"%zz"`. -/
def sampleUrlParse (s : String) : Option URL :=
  if s = "http://example.com/1" then
    some { Scheme := "http", Host := "example.com", Path := "/1" }
  else if s.data.all (fun c => c.isAlphanum || c == ' ') then some { Path := s }
  else none

/-- `(*url.URL).String` on URLs without opaque part, user, query and fragment:
scheme, host and the escaped path, where a space is written `%20`. -/
def sampleUrlString (u : URL) : String :=
  (if u.Scheme ≠ "" then u.Scheme ++ ":" else "") ++
  (if u.Host ≠ "" then "//" ++ u.Host else "") ++
  String.join (u.Path.data.map (fun c => if c = ' ' then "%20" else String.singleton c))

/-- A clock that started at 2013-01-01T00:00:00Z and advances by one second
per reading. -/
def sampleNow (k : Nat) : Time := { sec := 63492595200 + k, loc := some 0 }

/-- The sample collaborators, for a document on which the three decoders
give `atom`, `rss` and `rdf`. -/
def sampleEnv (atom : Except String AtomFeed) (rss : Except String Rss)
    (rdf : Except String RDF) : Env :=
  { decodeAtom := fun _ => atom
    decodeRss := fun _ => rss
    decodeRdf := fun _ => rdf
    timeParse := sampleTimeParse
    ParseRssDate := sampleParseRssDate
    Sanitize := sampleSanitize
    UnescapeString := fun s => s
    urlParse := sampleUrlParse
    urlString := sampleUrlString
    Now := sampleNow }

/-- The decode error of the Atom decoder on a document whose root is not an
Atom `feed`. -/
def notAtom : Except String AtomFeed := .error "expected element type <feed>"

/-- The decode error of the RSS decoder on a document whose root is not `rss`. -/
def notRss : Except String Rss := .error "expected element type <rss>"

/-- The decode error of the RDF decoder on a document whose root is not `RDF`. -/
def notRdf : Except String RDF := .error "expected element type <RDF>"

/-- An RDF document with one item that has an `about` attribute and no date. -/
def rdfNoDateDoc : Bytes :=
  ("<rdf:RDF xmlns:rdf=\"http://www.w3.org/1999/02/22-rdf-syntax-ns#\" " ++
   "xmlns=\"http://purl.org/rss/1.0/\"><channel><title>News</title></channel>" ++
   "<item rdf:about=\"http://example.com/1\"><title>One</title>" ++
   "<link>http://example.com/1</link></item></rdf:RDF>").toUTF8.data.toList

/-- The tree the RDF decoder builds from `rdfNoDateDoc`. -/
def rdfNoDateTree : RDF :=
  { Channel := some { Title := "News" }
    Item := [{ About := "http://example.com/1", Title := "One", Link := "http://example.com/1" }] }

/-- The collaborators on `rdfNoDateDoc`. -/
def rdfNoDateEnv : Env := sampleEnv notAtom notRss (.ok rdfNoDateTree)

/-- An RSS tree of three items, the second of which has neither title nor
description. -/
def rssUntitledTree : Rss :=
  { Title := "News"
    Items := [{ Title := "One", Link := "http://example.com/1",
                PubDate := "Mon, 02 Jan 2006 15:04:05 +0000" },
              { Link := "http://example.com/2", PubDate := "Tue, 03 Jan 2006 15:04:05 +0000" },
              { Title := "Three", Link := "http://example.com/3",
                PubDate := "Tue, 03 Jan 2006 15:04:05 +0000" }] }

/-- An RDF tree of two items, the second of which has neither `about` nor link. -/
def rdfNoIdTree : RDF :=
  { Channel := some { Title := "News", Date := "Mon, 02 Jan 2006 15:04:05 +0000" }
    Item := [{ About := "http://example.com/1", Title := "One",
               Date := "Mon, 02 Jan 2006 15:04:05 +0000" },
             { Title := "Two", Date := "Tue, 03 Jan 2006 15:04:05 +0000" }] }

/-- The bytes of `rssUntitledTree`. -/
def rssUntitledDoc : Bytes :=
  ("<rss version=\"2.0\"><channel><title>News</title>" ++
   "<item><title>One</title><link>http://example.com/1</link>" ++
   "<pubDate>Mon, 02 Jan 2006 15:04:05 +0000</pubDate></item>" ++
   "<item><link>http://example.com/2</link>" ++
   "<pubDate>Tue, 03 Jan 2006 15:04:05 +0000</pubDate></item>" ++
   "<item><title>Three</title><link>http://example.com/3</link>" ++
   "<pubDate>Tue, 03 Jan 2006 15:04:05 +0000</pubDate></item>" ++
   "</channel></rss>").toUTF8.data.toList

/-- The collaborators on `rssUntitledDoc`. -/
def rssUntitledEnv : Env := sampleEnv notAtom (.ok rssUntitledTree) notRdf

/-- The bytes of `rdfNoIdTree`. -/
def rdfNoIdDoc : Bytes :=
  ("<rdf:RDF xmlns:rdf=\"http://www.w3.org/1999/02/22-rdf-syntax-ns#\" " ++
   "xmlns=\"http://purl.org/rss/1.0/\" xmlns:dc=\"http://purl.org/dc/elements/1.1/\">" ++
   "<channel><title>News</title><dc:date>Mon, 02 Jan 2006 15:04:05 +0000</dc:date></channel>" ++
   "<item rdf:about=\"http://example.com/1\"><title>One</title>" ++
   "<dc:date>Mon, 02 Jan 2006 15:04:05 +0000</dc:date></item>" ++
   "<item><title>Two</title><dc:date>Tue, 03 Jan 2006 15:04:05 +0000</dc:date></item>" ++
   "</rdf:RDF>").toUTF8.data.toList

/-- The collaborators on `rdfNoIdDoc`. -/
def rdfNoIdEnv : Env := sampleEnv notAtom notRss (.ok rdfNoIdTree)

/-- The Atom document of the scenario in the specification. -/
def atomDoc : Bytes :=
  ("<feed xmlns=\"http://www.w3.org/2005/Atom\"><title>A</title>" ++
   "<link rel=\"self\" href=\"x\"/><link href=\"y\"/>" ++
   "<entry><id>1</id><title>T</title><updated>2020-01-01T00:00:00+00:00</updated></entry>" ++
   "</feed>").toUTF8.data.toList

/-- The tree the Atom decoder builds from `atomDoc`. -/
def atomTree : AtomFeed :=
  { Title := "A"
    Link := [{ Rel := "self", Href := "x" }, { Href := "y" }]
    Entry := [{ ID := "1", Title := "T", Updated := "2020-01-01T00:00:00+00:00" }] }

/-- The collaborators on `atomDoc`. -/
def atomEnv : Env := sampleEnv (.ok atomTree) notRss notRdf

/-- An RSS document with one item that has a description and no title. -/
def rssDescriptionDoc : Bytes :=
  ("<rss version=\"2.0\"><channel><title>News</title>" ++
   "<item><description>Hello</description><link>http://example.com/1</link>" ++
   "<pubDate>Mon, 02 Jan 2006 15:04:05 +0000</pubDate></item>" ++
   "</channel></rss>").toUTF8.data.toList

/-- The tree the RSS decoder builds from `rssDescriptionDoc`. -/
def rssDescriptionTree : Rss :=
  { Title := "News"
    Items := [{ Description := "Hello", Link := "http://example.com/1",
                PubDate := "Mon, 02 Jan 2006 15:04:05 +0000" }] }

/-- The collaborators on `rssDescriptionDoc`. -/
def rssDescriptionEnv : Env := sampleEnv notAtom (.ok rssDescriptionTree) notRdf

/-- An RSS document with one item whose `pubDate` is populated and is not a
date, and whose `date` is one. -/
def rssBadPubDateDoc : Bytes :=
  ("<rss version=\"2.0\" xmlns:dc=\"http://purl.org/dc/elements/1.1/\">" ++
   "<channel><title>News</title>" ++
   "<item><title>One</title><link>http://example.com/1</link>" ++
   "<pubDate>yesterday</pubDate><dc:date>Mon, 02 Jan 2006 15:04:05 +0000</dc:date></item>" ++
   "</channel></rss>").toUTF8.data.toList

/-- The tree the RSS decoder builds from `rssBadPubDateDoc`. -/
def rssBadPubDateTree : Rss :=
  { Title := "News"
    Items := [{ Title := "One", Link := "http://example.com/1", PubDate := "yesterday",
                Date := "Mon, 02 Jan 2006 15:04:05 +0000" }] }

/-- The collaborators on `rssBadPubDateDoc`. -/
def rssBadPubDateEnv : Env := sampleEnv notAtom (.ok rssBadPubDateTree) notRdf

/-- An RSS document with one item that has a link and nothing else: no
title, no description and no date. -/
def rssBareDoc : Bytes :=
  ("<rss version=\"2.0\"><channel><title>News</title>" ++
   "<item><link>http://example.com/1</link></item>" ++
   "</channel></rss>").toUTF8.data.toList

/-- The tree the RSS decoder builds from `rssBareDoc`. -/
def rssBareTree : Rss :=
  { Title := "News", Items := [{ Link := "http://example.com/1" }] }

/-- The collaborators on `rssBareDoc`. -/
def rssBareEnv : Env := sampleEnv notAtom (.ok rssBareTree) notRdf

/-- An RSS document of three items: the first and the third have no date
that parses, the second has a `pubDate`. -/
def rssUndatedDoc : Bytes :=
  ("<rss version=\"2.0\"><channel><title>News</title>" ++
   "<item><title>One</title><pubDate>yesterday</pubDate></item>" ++
   "<item><title>Two</title><pubDate>Tue, 03 Jan 2006 15:04:05 +0000</pubDate></item>" ++
   "<item><title>Three</title></item>" ++
   "</channel></rss>").toUTF8.data.toList

/-- The second item of `rssUndatedDoc`. -/
def rssUndatedSecond : RssItem :=
  { Title := "Two", PubDate := "Tue, 03 Jan 2006 15:04:05 +0000" }

/-- The third item of `rssUndatedDoc`. -/
def rssUndatedThird : RssItem := { Title := "Three" }

/-- The tree the RSS decoder builds from `rssUndatedDoc`. -/
def rssUndatedTree : Rss :=
  { Title := "News"
    Items := [{ Title := "One", PubDate := "yesterday" }, rssUndatedSecond, rssUndatedThird] }

/-- The story of `rssUndatedSecond`: 2006-01-03T15:04:05Z. -/
def rssUndatedSecondStory : Story :=
  { Id := "Two", Title := "Two", Link := "Two",
    Published := { sec := 63271897445, loc := some 0 },
    Updated := { sec := 63271897445, loc := some 0 }, Date := 1136300645 }

/-- The collaborators on `rssUndatedDoc`. -/
def rssUndatedEnv : Env := sampleEnv notAtom (.ok rssUndatedTree) notRdf

/-- An RDF document of two items: the first has an `about` and a date that
does not parse, the second a link and a date that parses. -/
def rdfDatesDoc : Bytes :=
  ("<rdf:RDF xmlns:rdf=\"http://www.w3.org/1999/02/22-rdf-syntax-ns#\" " ++
   "xmlns=\"http://purl.org/rss/1.0/\" xmlns:dc=\"http://purl.org/dc/elements/1.1/\">" ++
   "<channel><title>News</title></channel>" ++
   "<item rdf:about=\"http://example.com/1\"><title>One</title>" ++
   "<dc:date>yesterday</dc:date></item>" ++
   "<item><title>Two</title><link>http://example.com/2</link>" ++
   "<dc:date>Tue, 03 Jan 2006 15:04:05 +0000</dc:date></item>" ++
   "</rdf:RDF>").toUTF8.data.toList

/-- The first item of `rdfDatesDoc`. -/
def rdfDatesFirst : RdfItem :=
  { About := "http://example.com/1", Title := "One", Date := "yesterday" }

/-- The tree the RDF decoder builds from `rdfDatesDoc`. -/
def rdfDatesTree : RDF :=
  { Channel := some { Title := "News" }
    Item := [rdfDatesFirst,
             { Title := "Two", Link := "http://example.com/2",
               Date := "Tue, 03 Jan 2006 15:04:05 +0000" }] }

/-- The collaborators on `rdfDatesDoc`. -/
def rdfDatesEnv : Env := sampleEnv notAtom notRss (.ok rdfDatesTree)

/-- The collaborators alone, for `parseFix`. -/
def fixEnv : Env := sampleEnv notAtom notRss notRdf

/-- A story without link whose id has a space in it. -/
def spacedIdStory : Story := { Id := "hello world" }

/-- A story without link whose id is not a URL (a bad percent escape). -/
def badIdStory : Story := { Id := "%zz" }

/-! ## Auxiliary predicates -/

/-- No date field of the RSS item parses. -/
def rssDatesUnparsed (env : Env) (i : RssItem) : Bool :=
  (env.ParseRssDate i.PubDate).isNone && (env.ParseRssDate i.Date).isNone &&
    (env.ParseRssDate i.Published).isNone

/-! ## Statements of the specification, to compare the code with -/

/-- The feed link of an Atom feed in the words of the specification: the
`Href` of the first link whose `Rel` is not `"self"`, empty when there is no
such link. -/
def firstNonSelfHref (links : List AtomLink) : String :=
  match links.find? (fun l => decide (l.Rel ≠ "self")) with
  | some l => l.Href
  | none => ""

/-- The arguments of the `Sanitize` calls that the body of the Atom entry
loop makes for the entry `i`, in order: one call, on the body, when the entry
has a content. -/
def atomEntrySanitized (i : AtomEntry) : List String :=
  match i.Content with
  | some c => [c.Body]
  | none => []

/-- The resolved title of an RSS item in the words of the specification: the
title, or the description when the title is empty. -/
def rssResolvedTitle (i : RssItem) : String :=
  if i.Title ≠ "" then i.Title else i.Description

/-- The content and summary of an RSS item in the words of the
specification: the sanitized item content when it is non-empty; otherwise the
sanitized description when the resolved title and the description are both
non-empty; otherwise both empty. -/
def rssContentSpec (env : Env) (i : RssItem) : String × String :=
  if i.Content ≠ "" then env.Sanitize i.Content
  else if rssResolvedTitle i ≠ "" ∧ i.Description ≠ "" then env.Sanitize i.Description
  else ("", "")

/-- The id of an RSS item in the words of the specification: the value of
the guid when there is one, otherwise the resolved title. -/
def rssIdSpec (i : RssItem) : String :=
  match i.Guid with
  | some g => g.Guid
  | none => rssResolvedTitle i

/-- The id of an RDF item in the words of the specification: the `about`
attribute when it is non-empty, the link otherwise. -/
def rdfIdSpec (i : RdfItem) : String :=
  if i.About ≠ "" then i.About else i.Link

/-- The collaborators `env` with another sanitizer. -/
def Env.withSanitize (env : Env) (f : String → String × String) : Env :=
  { env with Sanitize := f }

/-- The collaborators `env` with another clock. -/
def Env.withNow (env : Env) (now : Nat → Time) : Env :=
  { env with Now := now }

/-- An Atom document of two entries: the first has no content, the second
has one. -/
def atomContentDoc : Bytes :=
  ("<feed xmlns=\"http://www.w3.org/2005/Atom\"><title>A</title>" ++
   "<entry><id>1</id><title>One</title></entry>" ++
   "<entry><id>2</id><title>Two</title><content>Body</content></entry>" ++
   "</feed>").toUTF8.data.toList

/-- The first entry of `atomContentDoc`. -/
def atomContentFirst : AtomEntry := { ID := "1", Title := "One" }

/-- The second entry of `atomContentDoc`. -/
def atomContentSecond : AtomEntry :=
  { ID := "2", Title := "Two", Content := some { Body := "Body" } }

/-- The tree the Atom decoder builds from `atomContentDoc`. -/
def atomContentTree : AtomFeed :=
  { Title := "A", Entry := [atomContentFirst, atomContentSecond] }

/-- The collaborators on `atomContentDoc`. -/
def atomContentEnv : Env := sampleEnv (.ok atomContentTree) notRss notRdf

/-- An RSS document of three items: one with a content, one with a
description and no title, one with a title and a guid. -/
def rssContentDoc : Bytes :=
  ("<rss version=\"2.0\" xmlns:content=\"http://purl.org/rss/1.0/modules/content/\">" ++
   "<channel><title>News</title>" ++
   "<item><title>One</title><description>about one</description>" ++
   "<content:encoded>full one</content:encoded></item>" ++
   "<item><description>Hello</description></item>" ++
   "<item><title>Three</title><guid>g3</guid></item>" ++
   "</channel></rss>").toUTF8.data.toList

/-- The first item of `rssContentDoc`. -/
def rssContentFirst : RssItem :=
  { Title := "One", Description := "about one", Content := "full one" }

/-- The second item of `rssContentDoc`. -/
def rssContentSecond : RssItem := { Description := "Hello" }

/-- The story of `rssContentSecond`; the clock is read for it a second time. -/
def rssContentSecondStory : Story :=
  { Id := "Hello", Link := "Hello", Published := sampleNow 1, Updated := sampleNow 1,
    Date := 1356998401, content := "Hello", Summary := "Hello" }

/-- The third item of `rssContentDoc`. -/
def rssContentThird : RssItem := { Title := "Three", Guid := some { Guid := "g3" } }

/-- The tree the RSS decoder builds from `rssContentDoc`. -/
def rssContentTree : Rss :=
  { Title := "News", Items := [rssContentFirst, rssContentSecond, rssContentThird] }

/-- The collaborators on `rssContentDoc`. -/
def rssContentEnv : Env := sampleEnv notAtom (.ok rssContentTree) notRdf

/-- The second item of `rdfDatesDoc`. -/
def rdfDatesSecond : RdfItem :=
  { Title := "Two", Link := "http://example.com/2", Date := "Tue, 03 Jan 2006 15:04:05 +0000" }

/-- A clock that started at 2014-01-01T00:00:00Z and advances by one minute
per reading. -/
def laterNow (k : Nat) : Time := { sec := 63524131200 + 60 * k, loc := some 0 }

/-- A story with a link. -/
def linkedStory : Story :=
  { Id := "hello world", Title := "Hello", Link := "http://example.com/hello" }

/-- A document that is none of the three dialects. -/
def htmlDoc : Bytes := "<html><body>not a feed</body></html>".toUTF8.data.toList

/-! ## `time.Parse` with the layout of `atomDateFormat`

A model of `time.Parse` of package `time` for the one layout `ParseAtomDate`
passes, `2006-01-02T15:04:05-07:00`: the chunks of the layout are the long
year, the zero-padded month and day, the hour, the zero-padded minute and
second, and a numeric zone with a colon.  It follows the current releases of
Go: a fractional second after the seconds is accepted although the layout has
none, the hour may have one digit, and the day is validated against the month.
The location of the result is the zone of the parsed offset. -/

/-- `isDigit` of package `time`, on one character. -/
def isDigit (c : Char) : Bool := decide ('0' ≤ c) && decide (c ≤ '9')

/-- The value of a decimal digit. -/
def digitVal (c : Char) : Nat := c.toNat - '0'.toNat

/-- `getnum` of package `time`: a number of one or two digits, of exactly two
when `fixed`; `none` is `errBad`. -/
def getnum (s : List Char) (fixed : Bool) : Option (Nat × List Char) :=
  match s with
  | [] => none
  | c₀ :: rest =>
    if isDigit c₀ then
      match rest with
      | [] => if fixed then none else some (digitVal c₀, [])
      | c₁ :: rest' =>
        if isDigit c₁ then some (digitVal c₀ * 10 + digitVal c₁, rest')
        else if fixed then none else some (digitVal c₀, rest)
    else none

/-- `skip` of package `time` on a prefix of one character that is not a
space. -/
def skipChar (c : Char) (s : List Char) : Option (List Char) :=
  match s with
  | [] => none
  | x :: rest => if x = c then some rest else none

/-- The chunk `2006`: four digits. -/
def parseLongYear (s : List Char) : Option (Nat × List Char) :=
  match s with
  | a :: b :: c :: d :: rest =>
    if isDigit a && isDigit b && isDigit c && isDigit d then
      some (((digitVal a * 10 + digitVal b) * 10 + digitVal c) * 10 + digitVal d, rest)
    else none
  | _ => none

/-- The value of a list of digits. -/
def digitsVal (ds : List Char) : Nat := ds.foldl (fun n c => n * 10 + digitVal c) 0

/-- The special case after the seconds: a period or a comma followed by a
digit starts a fractional second, which is read to its last digit; only the
first nine digits count (`parseNanoseconds`). -/
def parseFraction (s : List Char) : Nat × List Char :=
  match s with
  | p :: d :: rest =>
    if (p = '.' ∨ p = ',') ∧ isDigit d = true then
      let ds := ((d :: rest).takeWhile isDigit).take 9
      (digitsVal ds * 10 ^ (9 - ds.length), (d :: rest).dropWhile isDigit)
    else (0, s)
  | _ => (0, s)

/-- The chunk `-07:00`: sign, two digits, colon, two digits; the offset in
seconds east of UTC. -/
def parseNumColonTZ (s : List Char) : Option (Int × List Char) :=
  match s with
  | sign :: h₁ :: h₂ :: colon :: m₁ :: m₂ :: rest =>
    if colon ≠ ':' then none
    else
      match getnum [h₁, h₂] true, getnum [m₁, m₂] true with
      | some (hr, _), some (mm, _) =>
        if hr > 24 ∨ mm > 60 then none
        else if sign = '+' then some ((((hr * 60 + mm) * 60 : Nat) : Int), rest)
        else if sign = '-' then some (-(((hr * 60 + mm) * 60 : Nat) : Int), rest)
        else none
      | _, _ => none
  | _ => none

/-- `isLeap` of package `time`. -/
def isLeap (year : Nat) : Bool := year % 4 == 0 && (year % 100 != 0 || year % 400 == 0)

/-- `daysIn` of package `time`. -/
def daysIn (month year : Nat) : Nat :=
  if month = 2 then (if isLeap year then 29 else 28)
  else if month = 4 ∨ month = 6 ∨ month = 9 ∨ month = 11 then 30
  else 31

/-- The days of a common year before the first of the month. -/
def daysBefore (month : Nat) : Nat :=
  [0, 31, 59, 90, 120, 151, 181, 212, 243, 273, 304, 334].getD (month - 1) 0

/-- The days from January 1, year 1, to the given day of the proleptic
Gregorian calendar. -/
def daysSinceYearOne (year month day : Nat) : Int :=
  let y : Int := (year : Int) - 1
  365 * y + y / 4 - y / 100 + y / 400 + (daysBefore month : Int) +
    (if isLeap year ∧ 2 < month then 1 else 0) + ((day : Int) - 1)

/-- `time.Date(year, month, day, hour, min, sec, nsec, UTC)` on fields that
are in range, moved by the zone offset as `Parse` does: the instant, in the
zone of the offset. -/
def dateWithOffset (year month day hour min sec nsec : Nat) (offset : Int) : Time :=
  { sec := daysSinceYearOne year month day * secondsPerDay +
      ((hour * 3600 + min * 60 + sec : Nat) : Int) - offset
    nsec := nsec
    loc := some offset }

/-- `time.Parse("2006-01-02T15:04:05-07:00", value)`; `none` when it returns
an error. -/
def parseAtomLayout (value : String) : Option Time :=
  (parseLongYear value.data).bind fun (year, s) =>
  (skipChar '-' s).bind fun s =>
  (getnum s true).bind fun (month, s) =>
  if month = 0 ∨ 12 < month then none else
  (skipChar '-' s).bind fun s =>
  (getnum s true).bind fun (day, s) =>
  (skipChar 'T' s).bind fun s =>
  (getnum s false).bind fun (hour, s) =>
  if 24 ≤ hour then none else
  (skipChar ':' s).bind fun s =>
  (getnum s true).bind fun (min, s) =>
  if 60 ≤ min then none else
  (skipChar ':' s).bind fun s =>
  (getnum s true).bind fun (sec, s) =>
  if 60 ≤ sec then none else
  (parseNumColonTZ (parseFraction s).2).bind fun (offset, rest) =>
  if rest ≠ [] then none else
  if day < 1 ∨ daysIn month year < day then none else
  some (dateWithOffset year month day hour min sec (parseFraction s).1 offset)

/-- `time.Parse` as far as it is modelled: the layout `atomDateFormat`. -/
def goTimeParse (layout value : String) : Option Time :=
  if layout = atomDateFormat then parseAtomLayout value else none

/-- The sample collaborators with `goTimeParse` for `time.Parse`. -/
def timeEnv : Env := { fixEnv with timeParse := goTimeParse }

/-- The decimal digit for a number below ten. -/
def digitChar (n : Nat) : Char := Char.ofNat ('0'.toNat + n)

/-- A number below one hundred written with two digits. -/
def pad2 (n : Nat) : List Char := [digitChar (n / 10), digitChar (n % 10)]

/-- A number below ten thousand written with four digits. -/
def pad4 (n : Nat) : List Char :=
  [digitChar (n / 1000), digitChar (n / 100 % 10), digitChar (n / 10 % 10), digitChar (n % 10)]

/-- A date, a time of day and a zone offset of `zh` hours and `zm` minutes,
east of UTC or west of it, written in the layout `atomDateFormat`. -/
def formatAtomLayout (year month day hour min sec : Nat) (east : Bool) (zh zm : Nat) :
    String :=
  String.mk (pad4 year ++ '-' :: pad2 month ++ '-' :: pad2 day ++ 'T' :: pad2 hour ++
    ':' :: pad2 min ++ ':' :: pad2 sec ++ (if east then '+' else '-') :: pad2 zh ++
    ':' :: pad2 zm)

/-- The zone offset in seconds east of UTC. -/
def zoneSeconds (east : Bool) (zh zm : Nat) : Int :=
  if east then (((zh * 60 + zm) * 60 : Nat) : Int) else -(((zh * 60 + zm) * 60 : Nat) : Int)

/-- An RSS document with one item whose `pubDate` and `date` are both
populated and both dates, a day apart. -/
def rssBothDatesDoc : Bytes :=
  ("<rss version=\"2.0\" xmlns:dc=\"http://purl.org/dc/elements/1.1/\">" ++
   "<channel><title>News</title>" ++
   "<item><title>One</title>" ++
   "<pubDate>Mon, 02 Jan 2006 15:04:05 +0000</pubDate>" ++
   "<dc:date>Tue, 03 Jan 2006 15:04:05 +0000</dc:date></item>" ++
   "</channel></rss>").toUTF8.data.toList

/-- The item of `rssBothDatesDoc`. -/
def rssBothDatesItem : RssItem :=
  { Title := "One", PubDate := "Mon, 02 Jan 2006 15:04:05 +0000",
    Date := "Tue, 03 Jan 2006 15:04:05 +0000" }

/-- The tree the RSS decoder builds from `rssBothDatesDoc`. -/
def rssBothDatesTree : Rss := { Title := "News", Items := [rssBothDatesItem] }

/-- The collaborators on `rssBothDatesDoc`. -/
def rssBothDatesEnv : Env := sampleEnv notAtom (.ok rssBothDatesTree) notRdf

/-- The story of `rssBothDatesItem`: 2006-01-02T15:04:05Z, the `pubDate`. -/
def rssBothDatesStory : Story :=
  { Id := "One", Title := "One", Link := "One",
    Published := { sec := 63271811045, loc := some 0 },
    Updated := { sec := 63271811045, loc := some 0 }, Date := 1136214245 }

/-- The item of `rssBadPubDateDoc`. -/
def rssBadPubDateItem : RssItem :=
  { Title := "One", Link := "http://example.com/1", PubDate := "yesterday",
    Date := "Mon, 02 Jan 2006 15:04:05 +0000" }

/-- The story of `rssBadPubDateItem`: 2006-01-02T15:04:05Z, the `date`. -/
def rssBadPubDateStory : Story :=
  { Id := "One", Title := "One", Link := "http://example.com/1",
    Published := { sec := 63271811045, loc := some 0 },
    Updated := { sec := 63271811045, loc := some 0 }, Date := 1136214245 }

/-- An RDF document of two items: the first has an `about` and a date that
does not parse, the second has neither `about` nor link. -/
def rdfMixedDoc : Bytes :=
  ("<rdf:RDF xmlns:rdf=\"http://www.w3.org/1999/02/22-rdf-syntax-ns#\" " ++
   "xmlns=\"http://purl.org/rss/1.0/\" xmlns:dc=\"http://purl.org/dc/elements/1.1/\">" ++
   "<channel><title>News</title></channel>" ++
   "<item rdf:about=\"http://example.com/1\"><title>One</title>" ++
   "<dc:date>yesterday</dc:date></item>" ++
   "<item><title>Two</title></item>" ++
   "</rdf:RDF>").toUTF8.data.toList

/-- The tree the RDF decoder builds from `rdfMixedDoc`. -/
def rdfMixedTree : RDF :=
  { Channel := some { Title := "News" }
    Item := [rdfDatesFirst, { Title := "Two" }] }

/-- The collaborators on `rdfMixedDoc`. -/
def rdfMixedEnv : Env := sampleEnv notAtom notRss (.ok rdfMixedTree)

/-! ## What `time.Parse` accepts with the layout of `atomDateFormat`

A description, to compare `parseAtomLayout` with, of the strings it accepts:
the layout with its fields filled in, where the hour may be written with one
digit and a fractional second may follow the seconds. -/

/-- A fractional second as written: the separator and the digits. -/
def fracChars : Option (Char × List Char) → List Char
  | none => []
  | some (p, ds) => p :: ds

/-- The nanoseconds of a fractional second: its first nine digits, scaled. -/
def fracNanos : Option (Char × List Char) → Nat
  | none => 0
  | some (_, ds) => digitsVal (ds.take 9) * 10 ^ (9 - (ds.take 9).length)

/-- A fractional second is a period or a comma followed by at least one
digit and by digits only. -/
def fracValid : Option (Char × List Char) → Bool
  | none => true
  | some (p, ds) => (p == '.' || p == ',') && !ds.isEmpty && ds.all isDigit

/-- A date, a time of day and a zone offset as they are written in a string:
the fields, whether the hour is written with one digit, and the fractional
second if there is one. -/
structure AtomWritten where
  year : Nat
  month : Nat
  day : Nat
  hour : Nat
  min : Nat
  sec : Nat
  shortHour : Bool
  frac : Option (Char × List Char)
  east : Bool
  zh : Nat
  zm : Nat

/-- The fields are in range: a day that the month has, a time of day, an
offset of at most 24 hours and 60 minutes, an hour below ten when it is
written with one digit. -/
def AtomWritten.valid (w : AtomWritten) : Bool :=
  decide (w.year < 10000) && decide (1 ≤ w.month) && decide (w.month ≤ 12) &&
  decide (1 ≤ w.day) && decide (w.day ≤ daysIn w.month w.year) && decide (w.hour < 24) &&
  (!w.shortHour || decide (w.hour < 10)) && decide (w.min < 60) && decide (w.sec < 60) &&
  decide (w.zh ≤ 24) && decide (w.zm ≤ 60) && fracValid w.frac

/-- The characters of the string. -/
def AtomWritten.chars (w : AtomWritten) : List Char :=
  pad4 w.year ++ '-' :: pad2 w.month ++ '-' :: pad2 w.day ++
    'T' :: (if w.shortHour then [digitChar w.hour] else pad2 w.hour) ++
    ':' :: pad2 w.min ++ ':' :: pad2 w.sec ++ fracChars w.frac ++
    (if w.east then '+' else '-') :: pad2 w.zh ++ ':' :: pad2 w.zm

/-- The instant that is written, in the zone of the offset. -/
def AtomWritten.time (w : AtomWritten) : Time :=
  dateWithOffset w.year w.month w.day w.hour w.min w.sec (fracNanos w.frac)
    (zoneSeconds w.east w.zh w.zm)

/-- The string `2020-01-01T7:05:09+05:30`: the hour has one digit. -/
def shortHourWritten : AtomWritten :=
  { year := 2020, month := 1, day := 1, hour := 7, min := 5, sec := 9, shortHour := true,
    frac := none, east := true, zh := 5, zm := 30 }

/-- The string `2020-01-01T00:00:00.5+00:00`: half a second follows the
seconds. -/
def halfSecondWritten : AtomWritten :=
  { year := 2020, month := 1, day := 1, hour := 0, min := 0, sec := 0, shortHour := false,
    frac := some ('.', ['5']), east := true, zh := 0, zm := 0 }

end Goread

namespace Goread

/-! ## The branches do not consult the decoders -/

theorem atomEntries_withDecoders (env : Env) (dA : Bytes → Except String AtomFeed)
    (dR : Bytes → Except String Rss) (dD : Bytes → Except String RDF)
    (items : List AtomEntry) (s : List Story) :
    atomEntries (env.withDecoders dA dR dD) items s = atomEntries env items s := by
  induction items generalizing s with
  | nil => rfl
  | cons i rest ih =>
    unfold atomEntries
    have h : atomEntry (env.withDecoders dA dR dD) i = atomEntry env i := rfl
    rw [h]
    exact ih _

theorem rssItems_withDecoders (env : Env) (dA : Bytes → Except String AtomFeed)
    (dR : Bytes → Except String Rss) (dD : Bytes → Except String RDF)
    (items : List RssItem) (s : List Story) (σ : St) :
    rssItems (env.withDecoders dA dR dD) items s σ = rssItems env items s σ := by
  induction items generalizing s σ with
  | nil => rfl
  | cons i rest ih =>
    unfold rssItems
    have h : rssItem (env.withDecoders dA dR dD) σ i = rssItem env σ i := rfl
    rw [h]
    rcases rssItem env σ i with ⟨_ | st, σ'⟩
    · rfl
    · exact ih _ _

theorem rdfItems_withDecoders (env : Env) (dA : Bytes → Except String AtomFeed)
    (dR : Bytes → Except String Rss) (dD : Bytes → Except String RDF)
    (items : List RdfItem) (s : List Story) (σ : St) :
    rdfItems (env.withDecoders dA dR dD) items s σ = rdfItems env items s σ := by
  induction items generalizing s σ with
  | nil => rfl
  | cons i rest ih =>
    unfold rdfItems
    have h : rdfItem (env.withDecoders dA dR dD) σ i = rdfItem env σ i := rfl
    rw [h]
    rcases rdfItem env σ i with ⟨_ | st, σ'⟩
    · rfl
    · exact ih _ _

theorem atomBranch_withDecoders (env : Env) (dA : Bytes → Except String AtomFeed)
    (dR : Bytes → Except String Rss) (dD : Bytes → Except String RDF) (a : AtomFeed) :
    atomBranch (env.withDecoders dA dR dD) a = atomBranch env a := by
  unfold atomBranch
  rw [atomEntries_withDecoders]
  rfl

theorem rssBranch_withDecoders (env : Env) (dA : Bytes → Except String AtomFeed)
    (dR : Bytes → Except String Rss) (dD : Bytes → Except String RDF) (r : Rss) :
    rssBranch (env.withDecoders dA dR dD) r = rssBranch env r := by
  unfold rssBranch
  rw [rssItems_withDecoders]
  rfl

theorem rdfBranch_withDecoders (env : Env) (dA : Bytes → Except String AtomFeed)
    (dR : Bytes → Except String Rss) (dD : Bytes → Except String RDF) (rdf : RDF) :
    rdfBranch (env.withDecoders dA dR dD) rdf = rdfBranch env rdf := by
  unfold rdfBranch
  have h : rdfFeed (env.withDecoders dA dR dD) {} rdf = rdfFeed env {} rdf := rfl
  simp only [h, rdfItems_withDecoders]
  rfl

theorem ParseFeed_atom (env : Env) (b : Bytes) (a : AtomFeed)
    (hatom : env.decodeAtom b = .ok a) : ParseFeed env b = atomBranch env a := by
  unfold ParseFeed
  simp only [hatom]

theorem ParseFeed_rss (env : Env) (b : Bytes) (e : String) (r : Rss)
    (hatom : env.decodeAtom b = .error e) (hrss : env.decodeRss b = .ok r) :
    ParseFeed env b = rssBranch env r := by
  unfold ParseFeed
  simp only [hatom, hrss]

theorem ParseFeed_rdf (env : Env) (b : Bytes) (e₁ e₂ : String) (rdf : RDF)
    (hatom : env.decodeAtom b = .error e₁) (hrss : env.decodeRss b = .error e₂)
    (hrdf : env.decodeRdf b = .ok rdf) :
    ParseFeed env b = rdfBranch env rdf := by
  unfold ParseFeed
  simp only [hatom, hrss, hrdf]

/-! ## Lemmas on the item loops -/

theorem rssItem_untitled (env : Env) (σ : St) (i : RssItem)
    (ht : i.Title = "") (hd : i.Description = "") : (rssItem env σ i).1 = none := by
  simp [rssItem, ht, hd]

theorem rssItems_untitled (env : Env) (items : List RssItem)
    (h : ∃ i ∈ items, i.Title = "" ∧ i.Description = "") (s : List Story) (σ : St) :
    (rssItems env items s σ).1 = none := by
  induction items generalizing s σ with
  | nil => simp at h
  | cons i rest ih =>
    unfold rssItems
    rcases hres : rssItem env σ i with ⟨_ | st, σ'⟩
    · rfl
    · simp only
      apply ih
      obtain ⟨j, hj, ht, hd⟩ := h
      rcases List.mem_cons.mp hj with rfl | hj'
      · have := rssItem_untitled env σ j ht hd
        rw [hres] at this
        cases this
      · exact ⟨j, hj', ht, hd⟩

theorem rssBranch_untitled (env : Env) (r : Rss)
    (h : ∃ i ∈ r.Items, i.Title = "" ∧ i.Description = "") :
    (rssBranch env r).feed = none ∧ (rssBranch env r).stories = [] := by
  have h1 := rssItems_untitled env r.Items h [] {}
  unfold rssBranch
  rcases hres : rssItems env r.Items [] {} with ⟨_ | s, σ⟩
  · simp [returnNil]
  · rw [hres] at h1
    cases h1

theorem rdfItem_noId (env : Env) (σ : St) (i : RdfItem)
    (ha : i.About = "") (hl : i.Link = "") : (rdfItem env σ i).1 = none := by
  simp [rdfItem, ha, hl]

theorem rdfItems_noId (env : Env) (items : List RdfItem)
    (h : ∃ i ∈ items, i.About = "" ∧ i.Link = "") (s : List Story) (σ : St) :
    (rdfItems env items s σ).1 = none := by
  induction items generalizing s σ with
  | nil => simp at h
  | cons i rest ih =>
    unfold rdfItems
    rcases hres : rdfItem env σ i with ⟨_ | st, σ'⟩
    · rfl
    · simp only
      apply ih
      obtain ⟨j, hj, ha, hl⟩ := h
      rcases List.mem_cons.mp hj with rfl | hj'
      · have := rdfItem_noId env σ j ha hl
        rw [hres] at this
        cases this
      · exact ⟨j, hj', ha, hl⟩

theorem rdfBranch_noId (env : Env) (rdf : RDF)
    (h : ∃ i ∈ rdf.Item, i.About = "" ∧ i.Link = "") :
    (rdfBranch env rdf).feed = none ∧ (rdfBranch env rdf).stories = [] := by
  unfold rdfBranch
  simp only
  have h1 := rdfItems_noId env rdf.Item h [] (rdfFeed env {} rdf).2
  rcases hres : rdfItems env rdf.Item [] (rdfFeed env {} rdf).2 with ⟨_ | s, σ⟩
  · simp [returnNil]
  · rw [hres] at h1
    cases h1

/-! ## `parseFix` leaves the dates alone -/

theorem parseFixStory_dates (env : Env) (s : Story) :
    (parseFixStory env s).Published = s.Published ∧ (parseFixStory env s).Updated = s.Updated ∧
    (parseFixStory env s).Date = s.Date := by
  unfold parseFixStory
  split
  · split <;> simp
  · simp

/-! ## The RSS item loop on items that have a title or a description -/

theorem rssItemRest_dates (env : Env) (σ : St) (i : RssItem) (st : Story) :
    (rssItemRest env σ i st).2 = (rssItemDate env σ i).2 ∧
    (rssItemRest env σ i st).1.Published = (rssItemDate env σ i).1 ∧
    (rssItemRest env σ i st).1.Updated = (rssItemDate env σ i).1 ∧
    (rssItemRest env σ i st).1.Date = (rssItemDate env σ i).1.Unix := by
  simp [rssItemRest]

theorem rssItem_guarded (env : Env) (σ : St) (i : RssItem)
    (h : i.Title ≠ "" ∨ i.Description ≠ "") :
    ∃ st, rssItem env σ i = (some st, (rssItemDate env σ i).2) ∧
      st.Published = (rssItemDate env σ i).1 ∧ st.Updated = (rssItemDate env σ i).1 ∧
      st.Date = (rssItemDate env σ i).1.Unix := by
  unfold rssItem
  by_cases ht : i.Title = ""
  · have hd : i.Description ≠ "" := by
      rcases h with h | h
      · exact absurd ht h
      · exact h
    have hdate : rssItemDate env σ { i with Title := i.Description } = rssItemDate env σ i := rfl
    simp only [ht, hd, ne_eq, not_true_eq_false, not_false_eq_true, if_true, if_false]
    have hr := rssItemRest_dates env σ { i with Title := i.Description }
      { Link := i.Link, Author := i.Author }
    rw [hdate] at hr
    exact ⟨_, by rw [hr.1], hr.2.1, hr.2.2.1, hr.2.2.2⟩
  · simp only [ht, ne_eq, not_false_eq_true, if_true]
    have hr := rssItemRest_dates env σ i { Link := i.Link, Author := i.Author, Title := i.Title }
    exact ⟨_, by rw [hr.1], hr.2.1, hr.2.2.1, hr.2.2.2⟩

theorem rssItemDate_clock (env : Env) (σ : St) (i : RssItem) :
    (rssItemDate env σ i).2.clock = σ.clock + (if rssDatesUnparsed env i then 1 else 0) := by
  unfold rssItemDate rssDatesUnparsed
  cases h1 : env.ParseRssDate i.PubDate <;> cases h2 : env.ParseRssDate i.Date <;>
    cases h3 : env.ParseRssDate i.Published <;> simp [St.Now, St.Errorf]

theorem rssItemDate_first (env : Env) (σ : St) (i : RssItem) (t : Time)
    (h : env.ParseRssDate i.PubDate = some t) : (rssItemDate env σ i).1 = t := by
  simp [rssItemDate, h]

theorem rssItemDate_second (env : Env) (σ : St) (i : RssItem) (t : Time)
    (h1 : env.ParseRssDate i.PubDate = none) (h2 : env.ParseRssDate i.Date = some t) :
    (rssItemDate env σ i).1 = t := by
  simp [rssItemDate, h1, h2]

theorem rssItemDate_third (env : Env) (σ : St) (i : RssItem) (t : Time)
    (h1 : env.ParseRssDate i.PubDate = none) (h2 : env.ParseRssDate i.Date = none)
    (h3 : env.ParseRssDate i.Published = some t) : (rssItemDate env σ i).1 = t := by
  simp [rssItemDate, h1, h2, h3]

theorem rssItemDate_now (env : Env) (σ : St) (i : RssItem)
    (h1 : env.ParseRssDate i.PubDate = none) (h2 : env.ParseRssDate i.Date = none)
    (h3 : env.ParseRssDate i.Published = none) :
    (rssItemDate env σ i).1 = env.Now σ.clock := by
  simp [rssItemDate, h1, h2, h3, St.Now, St.Errorf]

theorem rssItems_guarded (env : Env) (items : List RssItem)
    (hall : ∀ i ∈ items, i.Title ≠ "" ∨ i.Description ≠ "") (s : List Story) (σ : St) :
    ∃ out σ', rssItems env items s σ = (some (s ++ out), σ') ∧ out.length = items.length ∧
      σ'.clock = σ.clock + items.countP (rssDatesUnparsed env) ∧
      ∀ k i, items[k]? = some i →
        ∃ σk st, σk.clock = σ.clock + (items.take k).countP (rssDatesUnparsed env) ∧
          (rssItem env σk i).1 = some st ∧ out[k]? = some st := by
  induction items generalizing s σ with
  | nil => exact ⟨[], σ, by simp [rssItems], rfl, by simp, by simp⟩
  | cons i rest ih =>
    obtain ⟨st, hst, -⟩ := rssItem_guarded env σ i (hall i (List.mem_cons_self _ _))
    obtain ⟨out, σ', hout, hlen, hclock, hk⟩ :=
      ih (fun j hj => hall j (List.mem_cons_of_mem _ hj)) (s ++ [st]) (rssItemDate env σ i).2
    refine ⟨st :: out, σ', ?_, by simp [hlen], ?_, ?_⟩
    · unfold rssItems
      rw [hst]
      simp only [hout, List.append_assoc, List.singleton_append]
    · rw [hclock, rssItemDate_clock, List.countP_cons]
      omega
    · intro k j hj
      cases k with
      | zero =>
        simp only [List.getElem?_cons_zero, Option.some.injEq] at hj
        subst hj
        exact ⟨σ, st, by simp, by rw [hst], by simp⟩
      | succ k =>
        simp only [List.getElem?_cons_succ] at hj
        obtain ⟨σk, stk, hck, hitem, hget⟩ := hk k j hj
        refine ⟨σk, stk, ?_, hitem, by simpa using hget⟩
        rw [hck, rssItemDate_clock, List.take_succ_cons, List.countP_cons]
        omega

theorem countP_take_lt {α : Type} (p : α → Bool) (l : List α) (k : Nat) (x : α)
    (hx : l[k]? = some x) (hp : p x = true) : (l.take k).countP p < l.countP p := by
  induction l generalizing k with
  | nil => simp at hx
  | cons y rest ih =>
    cases k with
    | zero =>
      simp only [List.getElem?_cons_zero, Option.some.injEq] at hx
      subst hx
      simp [List.countP_cons, hp]
    | succ k =>
      simp only [List.getElem?_cons_succ] at hx
      have := ih k hx
      rw [List.take_succ_cons, List.countP_cons, List.countP_cons]
      omega

/-- The RSS branch on a tree all of whose items have a title or a
description: the feed is returned, the clock has been read once per item
without a date that parses, and the k-th story carries the time the date
chain gives for the k-th item. -/
theorem rssBranch_guarded (env : Env) (r : Rss)
    (hall : ∀ i ∈ r.Items, i.Title ≠ "" ∨ i.Description ≠ "") :
    (rssBranch env r).feed = some (rssFeed env r) ∧
    (rssBranch env r).stories.length = r.Items.length ∧
    (rssBranch env r).clock = r.Items.countP (rssDatesUnparsed env) ∧
    ∀ k i, r.Items[k]? = some i →
      ∃ σk st, σk.clock = (r.Items.take k).countP (rssDatesUnparsed env) ∧
        (rssBranch env r).stories[k]? = some st ∧
        st.Published = (rssItemDate env σk i).1 ∧ st.Updated = (rssItemDate env σk i).1 ∧
        st.Date = (rssItemDate env σk i).1.Unix := by
  obtain ⟨out, σ', hout, hlen, hclock, hk⟩ := rssItems_guarded env r.Items hall [] {}
  have hb : rssBranch env r = returnFix env (rssFeed env r) out σ' := by
    unfold rssBranch
    rw [hout]
    rfl
  rw [hb]
  refine ⟨rfl, by simp [returnFix, parseFix, hlen], by simpa [returnFix] using hclock, ?_⟩
  intro k i hi
  obtain ⟨σk, st, hck, hitem, hget⟩ := hk k i hi
  have hgi : i.Title ≠ "" ∨ i.Description ≠ "" := hall i (List.getElem?_mem hi)
  obtain ⟨st', hst', hp, hu, hd⟩ := rssItem_guarded env σk i hgi
  rw [hst'] at hitem
  simp only [Option.some.injEq] at hitem
  subst hitem
  have hf := parseFixStory_dates env st'
  refine ⟨σk, parseFixStory env st', by simpa using hck, ?_, ?_, ?_, ?_⟩
  · simp [returnFix, parseFix, List.getElem?_map, hget]
  · rw [hf.1, hp]
  · rw [hf.2.1, hu]
  · rw [hf.2.2, hd]

/-! ## The Atom and RSS branches keep `Date` equal to `Updated.Unix()` -/

theorem atomEntries_eq (env : Env) (items : List AtomEntry) (s : List Story) :
    atomEntries env items s = s ++ items.map (atomEntry env) := by
  induction items generalizing s with
  | nil => simp [atomEntries]
  | cons i rest ih =>
    unfold atomEntries
    rw [ih]
    simp

theorem atomEntry_date (env : Env) (i : AtomEntry) :
    (atomEntry env i).Date = (atomEntry env i).Updated.Unix := by
  unfold atomEntry
  cases i.Link <;> cases i.Author <;> cases i.Content <;> rfl

theorem atomBranch_date (env : Env) (a : AtomFeed) :
    ∀ st ∈ (atomBranch env a).stories, st.Date = st.Updated.Unix := by
  intro st hst
  simp only [atomBranch, returnFix, parseFix, atomEntries_eq, List.nil_append, List.map_map,
    List.mem_map, Function.comp] at hst
  obtain ⟨i, -, rfl⟩ := hst
  have hf := parseFixStory_dates env (atomEntry env i)
  rw [hf.2.1, hf.2.2]
  exact atomEntry_date env i

theorem rssBranch_date (env : Env) (r : Rss) :
    ∀ st ∈ (rssBranch env r).stories, st.Date = st.Updated.Unix := by
  intro st hst
  by_cases hall : ∀ j ∈ r.Items, j.Title ≠ "" ∨ j.Description ≠ ""
  · obtain ⟨-, hlen, -, hk⟩ := rssBranch_guarded env r hall
    obtain ⟨k, hget⟩ := List.mem_iff_getElem?.mp hst
    have hlt : k < r.Items.length := by
      rw [← hlen]
      exact (List.getElem?_eq_some_iff.mp hget).1
    obtain ⟨σk, st', -, hget', -, hu, hd⟩ := hk k (r.Items[k]) (List.getElem?_eq_getElem hlt)
    rw [hget] at hget'
    simp only [Option.some.injEq] at hget'
    subst hget'
    rw [hd, hu]
  · have hbad : ∃ j ∈ r.Items, j.Title = "" ∧ j.Description = "" := by
      by_contra hne
      apply hall
      intro j hj
      by_contra hg
      apply hne
      refine ⟨j, hj, ?_, ?_⟩
      · by_contra ht
        exact hg (Or.inl ht)
      · by_contra hd
        exact hg (Or.inr hd)
    rw [(rssBranch_untitled env r hbad).2] at hst
    simp at hst

/-! ## The RDF item loop on items that have an `about` or a link -/

theorem rdfItem_guarded (env : Env) (σ : St) (i : RdfItem)
    (h : i.About ≠ "" ∨ i.Link ≠ "") :
    ∃ st, (rdfItem env σ i).1 = some st ∧ (rdfItem env σ i).2.clock = σ.clock ∧
      (∀ t, env.ParseRssDate i.Date = some t →
        st.Published = t ∧ st.Updated = t ∧ st.Date = t.Unix) ∧
      (env.ParseRssDate i.Date = none →
        st.Published = Time.zero ∧ st.Updated = Time.zero ∧ st.Date = 0) := by
  unfold rdfItem
  by_cases ha : i.About = ""
  · have hl : i.Link ≠ "" := by
      rcases h with h | h
      · exact absurd ha h
      · exact h
    cases hd : env.ParseRssDate i.Date <;> simp [ha, hl, hd, rdfItemDate, St.Errorf]
  · cases hd : env.ParseRssDate i.Date <;> simp [ha, hd, rdfItemDate, St.Errorf]

theorem rdfItems_guarded (env : Env) (items : List RdfItem)
    (hall : ∀ i ∈ items, i.About ≠ "" ∨ i.Link ≠ "") (s : List Story) (σ : St) :
    ∃ out σ', rdfItems env items s σ = (some (s ++ out), σ') ∧ out.length = items.length ∧
      σ'.clock = σ.clock ∧
      ∀ (k : Nat) (i : RdfItem), items[k]? = some i →
        ∃ σk st, (rdfItem env σk i).1 = some st ∧ out[k]? = some st := by
  induction items generalizing s σ with
  | nil => exact ⟨[], σ, by simp [rdfItems], rfl, rfl, by simp⟩
  | cons i rest ih =>
    obtain ⟨st, hst, hc, -⟩ := rdfItem_guarded env σ i (hall i (List.mem_cons_self _ _))
    obtain ⟨out, σ', hout, hlen, hclock, hk⟩ :=
      ih (fun j hj => hall j (List.mem_cons_of_mem _ hj)) (s ++ [st]) (rdfItem env σ i).2
    refine ⟨st :: out, σ', ?_, by simp [hlen], by rw [hclock, hc], ?_⟩
    · unfold rdfItems
      rcases hres : rdfItem env σ i with ⟨o, σ1⟩
      rw [hres] at hst hout
      simp only at hst hout
      subst hst
      simp only [hout, List.append_assoc, List.singleton_append]
    · intro k j hj
      cases k with
      | zero =>
        simp only [List.getElem?_cons_zero, Option.some.injEq] at hj
        subst hj
        exact ⟨σ, st, hst, by simp⟩
      | succ k =>
        simp only [List.getElem?_cons_succ] at hj
        obtain ⟨σk, stk, hitem, hget⟩ := hk k j hj
        exact ⟨σk, stk, hitem, by simpa using hget⟩

theorem rdfFeed_clock (env : Env) (σ : St) (rdf : RDF) : (rdfFeed env σ rdf).2.clock = σ.clock := by
  unfold rdfFeed
  split
  · split <;> simp [St.Errorf]
  · rfl

/-- The RDF branch on a tree all of whose items have an `about` or a link:
a feed is returned, the clock is never read, and the k-th story carries the
parsed date of the k-th item, or the zero time when it does not parse. -/
theorem rdfBranch_guarded (env : Env) (rdf : RDF)
    (hall : ∀ i ∈ rdf.Item, i.About ≠ "" ∨ i.Link ≠ "") :
    (rdfBranch env rdf).feed = some (rdfFeed env {} rdf).1 ∧
    (rdfBranch env rdf).stories.length = rdf.Item.length ∧
    (rdfBranch env rdf).clock = 0 ∧
    ∀ (k : Nat) (i : RdfItem), rdf.Item[k]? = some i →
      ∃ st, (rdfBranch env rdf).stories[k]? = some st ∧
        (∀ t, env.ParseRssDate i.Date = some t →
          st.Published = t ∧ st.Updated = t ∧ st.Date = t.Unix) ∧
        (env.ParseRssDate i.Date = none →
          st.Published = Time.zero ∧ st.Updated = Time.zero ∧ st.Date = 0) := by
  obtain ⟨out, σ', hout, hlen, hclock, hk⟩ :=
    rdfItems_guarded env rdf.Item hall [] (rdfFeed env {} rdf).2
  have hb : rdfBranch env rdf = returnFix env (rdfFeed env {} rdf).1 out σ' := by
    unfold rdfBranch
    simp only [hout]
    rfl
  rw [hb]
  refine ⟨rfl, by simp [returnFix, parseFix, hlen], ?_, ?_⟩
  · have := rdfFeed_clock env {} rdf
    simp only [returnFix]
    rw [hclock, this]
  · intro k i hi
    obtain ⟨σk, st, hitem, hget⟩ := hk k i hi
    obtain ⟨st', hst', -, hsome, hnone⟩ :=
      rdfItem_guarded env σk i (hall i (List.getElem?_mem hi))
    rw [hst'] at hitem
    simp only [Option.some.injEq] at hitem
    subst hitem
    have hf := parseFixStory_dates env st'
    refine ⟨parseFixStory env st', ?_, ?_, ?_⟩
    · simp [returnFix, parseFix, List.getElem?_map, hget]
    · intro t ht
      rw [hf.1, hf.2.1, hf.2.2]
      exact hsome t ht
    · intro hn
      rw [hf.1, hf.2.1, hf.2.2]
      exact hnone hn

/-! ## Claims -/

/-- C1 (evaluation at the failing input).  On an RDF document whose item has
no parsable date, the story `ParseFeed` returns has `Date = 0`, while
`Updated` is the zero time, whose `Unix()` is `-62135596800`: `Date` is not
the epoch-seconds value of `Updated`. -/
theorem C1_rdf_unparsed_date_mirror :
    (ParseFeed rdfNoDateEnv rdfNoDateDoc).stories.map
        (fun s => (s.Id, s.Updated, s.Date, s.Updated.Unix))
      = [("http://example.com/1", Time.zero, 0, -62135596800)] := by
  decide

/-- C2.  When the Atom decode fails and the RSS decode succeeds, an item with
an empty title and an empty description, at any position, makes `ParseFeed`
return the total-failure result: no feed and no stories. -/
theorem C2_rss_untitled_item_is_total_failure (env : Env) (b : Bytes) (e : String) (r : Rss)
    (hatom : env.decodeAtom b = .error e) (hrss : env.decodeRss b = .ok r)
    (h : ∃ i ∈ r.Items, i.Title = "" ∧ i.Description = "") :
    (ParseFeed env b).feed = none ∧ (ParseFeed env b).stories = [] := by
  unfold ParseFeed
  simp only [hatom, hrss]
  exact rssBranch_untitled env r h

/-- C3.  When the Atom and RSS decodes fail and the RDF decode succeeds, an
item with an empty `about` and an empty link, at any position, makes
`ParseFeed` return total failure: no feed and no stories. -/
theorem C3_rdf_item_without_id_is_total_failure (env : Env) (b : Bytes) (e₁ e₂ : String)
    (rdf : RDF) (hatom : env.decodeAtom b = .error e₁) (hrss : env.decodeRss b = .error e₂)
    (hrdf : env.decodeRdf b = .ok rdf)
    (h : ∃ i ∈ rdf.Item, i.About = "" ∧ i.Link = "") :
    (ParseFeed env b).feed = none ∧ (ParseFeed env b).stories = [] := by
  unfold ParseFeed
  simp only [hatom, hrss, hrdf]
  exact rdfBranch_noId env rdf h

/-- C2, at `rssUntitledDoc`, whose second item of three has neither title nor
description. -/
theorem C2_rss_untitled_item_is_total_failure_witness :
    rssUntitledEnv.decodeAtom rssUntitledDoc = .error "expected element type <feed>" ∧
    rssUntitledEnv.decodeRss rssUntitledDoc = .ok rssUntitledTree ∧
    (∃ i ∈ rssUntitledTree.Items, i.Title = "" ∧ i.Description = "") ∧
    (ParseFeed rssUntitledEnv rssUntitledDoc).feed = none ∧
    (ParseFeed rssUntitledEnv rssUntitledDoc).stories = [] :=
  ⟨rfl, rfl, by decide,
    C2_rss_untitled_item_is_total_failure rssUntitledEnv rssUntitledDoc _ rssUntitledTree
      rfl rfl (by decide)⟩

/-- C3, at `rdfNoIdDoc`, whose second item has neither `about` nor link. -/
theorem C3_rdf_item_without_id_is_total_failure_witness :
    rdfNoIdEnv.decodeAtom rdfNoIdDoc = .error "expected element type <feed>" ∧
    rdfNoIdEnv.decodeRss rdfNoIdDoc = .error "expected element type <rss>" ∧
    rdfNoIdEnv.decodeRdf rdfNoIdDoc = .ok rdfNoIdTree ∧
    (∃ i ∈ rdfNoIdTree.Item, i.About = "" ∧ i.Link = "") ∧
    (ParseFeed rdfNoIdEnv rdfNoIdDoc).feed = none ∧
    (ParseFeed rdfNoIdEnv rdfNoIdDoc).stories = [] :=
  ⟨rfl, rfl, rfl, by decide,
    C3_rdf_item_without_id_is_total_failure rdfNoIdEnv rdfNoIdDoc _ _ rdfNoIdTree
      rfl rfl rfl (by decide)⟩

/-- C4.  The dialects are tried in the order Atom, RSS, RDF.  When the Atom
decode succeeds, `ParseFeed` returns `parseFix` of the Atom mapping of the
decoded tree, with no diagnostic and no clock reading, whatever the RSS and
RDF decoders would do on the same bytes; when the Atom decode fails and the
RSS decode succeeds, it returns the outcome of the RSS branch on the decoded
tree, whatever the RDF decoder would do. -/
theorem C4_dialect_priority (env : Env) (b : Bytes) :
    (∀ a, env.decodeAtom b = .ok a →
      ∀ (dR : Bytes → Except String Rss) (dD : Bytes → Except String RDF),
        ParseFeed { env with decodeRss := dR, decodeRdf := dD } b
          = returnFix env (atomFeed env a) (atomEntries env a.Entry []) {}) ∧
    (∀ e r, env.decodeAtom b = .error e → env.decodeRss b = .ok r →
      ∀ (dD : Bytes → Except String RDF),
        ParseFeed { env with decodeRdf := dD } b = rssBranch env r) := by
  constructor
  · intro a hatom dR dD
    have h := ParseFeed_atom (env.withDecoders env.decodeAtom dR dD) b a hatom
    rw [atomBranch_withDecoders] at h
    exact h
  · intro e r hatom hrss dD
    have h := ParseFeed_rss (env.withDecoders env.decodeAtom env.decodeRss dD) b e r hatom hrss
    rw [rssBranch_withDecoders] at h
    exact h

/-- C4, at `atomDoc` with RSS and RDF decoders that would succeed too, and at
`rssUntitledDoc` with an RDF decoder that would succeed too. -/
theorem C4_dialect_priority_witness :
    (atomEnv.decodeAtom atomDoc = .ok atomTree ∧
      ParseFeed { atomEnv with decodeRss := fun _ => .ok rssUntitledTree,
                               decodeRdf := fun _ => .ok rdfNoDateTree } atomDoc
        = returnFix atomEnv (atomFeed atomEnv atomTree)
            (atomEntries atomEnv atomTree.Entry []) {}) ∧
    (rssUntitledEnv.decodeAtom rssUntitledDoc = .error "expected element type <feed>" ∧
      rssUntitledEnv.decodeRss rssUntitledDoc = .ok rssUntitledTree ∧
      ParseFeed { rssUntitledEnv with decodeRdf := fun _ => .ok rdfNoDateTree } rssUntitledDoc
        = rssBranch rssUntitledEnv rssUntitledTree) :=
  ⟨⟨rfl, (C4_dialect_priority atomEnv atomDoc).1 atomTree rfl _ _⟩,
   ⟨rfl, rfl, (C4_dialect_priority rssUntitledEnv rssUntitledDoc).2 _ rssUntitledTree rfl rfl _⟩⟩

/-- C5.  A structural decode is a commitment.  When the Atom decode fails,
the RSS decode succeeds and an item has neither title nor description,
`ParseFeed` returns total failure whatever the RDF decoder would return on the
same bytes, and its whole outcome (result and diagnostics) is the same for
every RDF decoder: the RDF path is not used. -/
theorem C5_rss_commitment (env : Env) (b : Bytes) (e : String) (r : Rss)
    (hatom : env.decodeAtom b = .error e) (hrss : env.decodeRss b = .ok r)
    (h : ∃ i ∈ r.Items, i.Title = "" ∧ i.Description = "")
    (dD : Bytes → Except String RDF) :
    (ParseFeed { env with decodeRdf := dD } b).feed = none ∧
    (ParseFeed { env with decodeRdf := dD } b).stories = [] ∧
    ParseFeed { env with decodeRdf := dD } b = ParseFeed env b := by
  have h1 := ParseFeed_rss (env.withDecoders env.decodeAtom env.decodeRss dD) b e r hatom hrss
  rw [rssBranch_withDecoders] at h1
  have h2 := ParseFeed_rss env b e r hatom hrss
  have h3 : ParseFeed { env with decodeRdf := dD } b = rssBranch env r := h1
  rw [h3, h2]
  exact ⟨(rssBranch_untitled env r h).1, (rssBranch_untitled env r h).2, rfl⟩

/-- C5, at `rssUntitledDoc` with an RDF decoder that would succeed and whose
tree the RDF branch maps to a feed. -/
theorem C5_rss_commitment_witness :
    rssUntitledEnv.decodeAtom rssUntitledDoc = .error "expected element type <feed>" ∧
    rssUntitledEnv.decodeRss rssUntitledDoc = .ok rssUntitledTree ∧
    (∃ i ∈ rssUntitledTree.Items, i.Title = "" ∧ i.Description = "") ∧
    (rdfBranch rssUntitledEnv rdfNoDateTree).feed = some { Title := "News" } ∧
    (ParseFeed { rssUntitledEnv with decodeRdf := fun _ => .ok rdfNoDateTree }
        rssUntitledDoc).feed = none ∧
    (ParseFeed { rssUntitledEnv with decodeRdf := fun _ => .ok rdfNoDateTree }
        rssUntitledDoc).stories = [] ∧
    ParseFeed { rssUntitledEnv with decodeRdf := fun _ => .ok rdfNoDateTree } rssUntitledDoc
      = ParseFeed rssUntitledEnv rssUntitledDoc :=
  ⟨rfl, rfl, by decide, by decide,
    C5_rss_commitment rssUntitledEnv rssUntitledDoc _ rssUntitledTree rfl rfl (by decide) _⟩

/-- C6 (counterexample).  The story has an empty link and an id that
`url.Parse` accepts, and after `parseFix` its link is `hello%20world`, the
string form of the parsed URL, which is not the id `hello world`. -/
theorem C6_link_differs_from_id :
    spacedIdStory.Link = "" ∧
    fixEnv.urlParse spacedIdStory.Id = some { Path := "hello world" } ∧
    (parseFix fixEnv (some {}) [spacedIdStory]).2.map (fun s => (s.Id, s.Link))
      = [("hello world", "hello%20world")] := by
  decide

/-- C6 (amended).  For every story with an empty link, `parseFix` sets the
link to the string form `u.String()` of the URL `u` that `url.Parse` returns
for the id, and leaves the link empty when `url.Parse` returns an error. -/
theorem C6_parseFix_link (env : Env) (f : Option Feed) (ss : List Story) (k : Nat) (s : Story)
    (hk : ss[k]? = some s) (hl : s.Link = "") :
    ∃ s', (parseFix env f ss).2[k]? = some s' ∧ s'.Id = s.Id ∧
      (∀ u, env.urlParse s.Id = some u → s'.Link = env.urlString u) ∧
      (env.urlParse s.Id = none → s'.Link = "") := by
  refine ⟨parseFixStory env s, by simp [parseFix, List.getElem?_map, hk], ?_, ?_, ?_⟩
  · simp only [parseFixStory, hl, if_true]
    cases env.urlParse s.Id <;> rfl
  · intro u hu
    simp [parseFixStory, hl, hu]
  · intro hn
    simp [parseFixStory, hl, hn]

/-- C6 (amended), at a story whose id `url.Parse` rejects. -/
theorem C6_parseFix_link_witness :
    [spacedIdStory, badIdStory][1]? = some badIdStory ∧ badIdStory.Link = "" ∧
    ∃ s', (parseFix fixEnv (some {}) [spacedIdStory, badIdStory]).2[1]? = some s' ∧
      s'.Id = badIdStory.Id ∧
      (∀ u, fixEnv.urlParse badIdStory.Id = some u → s'.Link = fixEnv.urlString u) ∧
      (fixEnv.urlParse badIdStory.Id = none → s'.Link = "") :=
  ⟨rfl, rfl, C6_parseFix_link fixEnv (some {}) [spacedIdStory, badIdStory] 1 badIdStory rfl rfl⟩

/-- C7 (evaluation at the failing input).  For an RSS item with an empty
title and the description `Hello`, the story `ParseFeed` returns has an empty
`Title`; the description went into the loop variable, from which the `Id` of
the story is taken. -/
theorem C7_rss_description_not_in_title :
    (ParseFeed rssDescriptionEnv rssDescriptionDoc).stories.map (fun s => (s.Title, s.Id))
      = [("", "Hello")] := by
  decide

/-- C8 (counterexample).  The item has a populated `PubDate` that is not a
date and a populated `Date` that is one: `Published` and `Updated` of its
story are the result of parsing `Date`. -/
theorem C8_unparsed_pubdate_uses_date :
    rssBadPubDateTree.Items.map (fun i => (i.PubDate, i.Date))
      = [("yesterday", "Mon, 02 Jan 2006 15:04:05 +0000")] ∧
    rssBadPubDateEnv.ParseRssDate "yesterday" = none ∧
    rssBadPubDateEnv.ParseRssDate "Mon, 02 Jan 2006 15:04:05 +0000"
      = some { sec := 63271811045, loc := some 0 } ∧
    (ParseFeed rssBadPubDateEnv rssBadPubDateDoc).stories.map (fun s => (s.Published, s.Updated))
      = [({ sec := 63271811045, loc := some 0 }, { sec := 63271811045, loc := some 0 })] := by
  decide

/-- C8 (amended).  For every RSS item whose `PubDate` parses as a date, the
`Published` and `Updated` of its story are the result of parsing `PubDate`,
whatever `Date` holds; when `PubDate` does not parse and `Date` does, they are
the result of parsing `Date`. -/
theorem C8_rss_pubdate_before_date (env : Env) (b : Bytes) (e : String) (r : Rss)
    (hatom : env.decodeAtom b = .error e) (hrss : env.decodeRss b = .ok r)
    (k : Nat) (i : RssItem) (st : Story) (hi : r.Items[k]? = some i)
    (hst : (ParseFeed env b).stories[k]? = some st) :
    (∀ t, env.ParseRssDate i.PubDate = some t → st.Published = t ∧ st.Updated = t) ∧
    (∀ t, env.ParseRssDate i.PubDate = none → env.ParseRssDate i.Date = some t →
      st.Published = t ∧ st.Updated = t) := by
  rw [ParseFeed_rss env b e r hatom hrss] at hst
  by_cases hall : ∀ j ∈ r.Items, j.Title ≠ "" ∨ j.Description ≠ ""
  · obtain ⟨σk, st', -, hget, hp, hu, -⟩ := (rssBranch_guarded env r hall).2.2.2 k i hi
    rw [hget] at hst
    simp only [Option.some.injEq] at hst
    subst hst
    constructor
    · intro t ht
      rw [hp, hu, rssItemDate_first env σk i t ht]
      exact ⟨rfl, rfl⟩
    · intro t h1 h2
      rw [hp, hu, rssItemDate_second env σk i t h1 h2]
      exact ⟨rfl, rfl⟩
  · have hbad : ∃ j ∈ r.Items, j.Title = "" ∧ j.Description = "" := by
      by_contra hne
      apply hall
      intro j hj
      by_contra hg
      apply hne
      refine ⟨j, hj, ?_, ?_⟩
      · by_contra ht
        exact hg (Or.inl ht)
      · by_contra hd
        exact hg (Or.inr hd)
    rw [(rssBranch_untitled env r hbad).2] at hst
    simp at hst

/-- C8 (amended), at the item of `rssBothDatesDoc`, whose `PubDate` and
`Date` are both populated and are two different dates: the story carries the
`PubDate`.  At the item of `rssBadPubDateDoc`, whose `PubDate` is populated and
is not a date, the story carries the `Date`. -/
theorem C8_rss_pubdate_before_date_witness :
    rssBothDatesEnv.decodeAtom rssBothDatesDoc = .error "expected element type <feed>" ∧
    rssBothDatesEnv.decodeRss rssBothDatesDoc = .ok rssBothDatesTree ∧
    rssBothDatesTree.Items[0]? = some rssBothDatesItem ∧
    (ParseFeed rssBothDatesEnv rssBothDatesDoc).stories[0]? = some rssBothDatesStory ∧
    rssBothDatesItem.PubDate ≠ "" ∧ rssBothDatesItem.Date ≠ "" ∧
    rssBothDatesEnv.ParseRssDate rssBothDatesItem.PubDate
      = some { sec := 63271811045, loc := some 0 } ∧
    rssBothDatesEnv.ParseRssDate rssBothDatesItem.Date
      = some { sec := 63271897445, loc := some 0 } ∧
    (rssBothDatesStory.Published = { sec := 63271811045, loc := some 0 } ∧
      rssBothDatesStory.Updated = { sec := 63271811045, loc := some 0 }) ∧
    rssBadPubDateTree.Items[0]? = some rssBadPubDateItem ∧
    (ParseFeed rssBadPubDateEnv rssBadPubDateDoc).stories[0]? = some rssBadPubDateStory ∧
    rssBadPubDateEnv.ParseRssDate rssBadPubDateItem.PubDate = none ∧
    rssBadPubDateEnv.ParseRssDate rssBadPubDateItem.Date
      = some { sec := 63271811045, loc := some 0 } ∧
    (rssBadPubDateStory.Published = { sec := 63271811045, loc := some 0 } ∧
      rssBadPubDateStory.Updated = { sec := 63271811045, loc := some 0 }) :=
  ⟨rfl, rfl, rfl, by decide, by decide, by decide, rfl, rfl,
    (C8_rss_pubdate_before_date rssBothDatesEnv rssBothDatesDoc _ rssBothDatesTree rfl rfl 0
      rssBothDatesItem rssBothDatesStory rfl (by decide)).1 _ rfl,
    rfl, by decide, rfl, rfl,
    (C8_rss_pubdate_before_date rssBadPubDateEnv rssBadPubDateDoc _ rssBadPubDateTree rfl rfl 0
      rssBadPubDateItem rssBadPubDateStory rfl (by decide)).2 _ rfl rfl⟩

/-- C9 (counterexample).  The only item of the document has no date that
parses, and it has neither title nor description: `ParseFeed` returns no feed
and no stories, so the item is not returned as a story. -/
theorem C9_undated_untitled_item_not_returned :
    rssBareEnv.decodeRss rssBareDoc = .ok rssBareTree ∧
    rssBareTree.Items.map (fun i => (i.Title, i.Description, rssDatesUnparsed rssBareEnv i))
      = [("", "", true)] ∧
    (ParseFeed rssBareEnv rssBareDoc).feed = none ∧
    (ParseFeed rssBareEnv rssBareDoc).stories = [] :=
  ⟨rfl, by decide, by decide, by decide⟩

/-- C9 (amended).  For every RSS item that has a title or a description:
the loop body returns a story for it, and in a tree all of whose items have a
title or a description `ParseFeed` returns it as the k-th story.  When none of
`PubDate`, `Date` and `Published` parses, `Published` and `Updated` of the
story are the clock reading taken for the item during the call (the n-th of
the call, where n items before it had no date that parses) and `Date` is the
Unix seconds of that reading; otherwise `Published` and `Updated` are the
first of the three, in this order, that parses. -/
theorem C9_rss_unparsed_dates_use_now (env : Env) (b : Bytes) (e : String) (r : Rss)
    (hatom : env.decodeAtom b = .error e) (hrss : env.decodeRss b = .ok r)
    (k : Nat) (i : RssItem) (hi : r.Items[k]? = some i)
    (hg : i.Title ≠ "" ∨ i.Description ≠ "") :
    (∀ σ : St, ∃ st, (rssItem env σ i).1 = some st ∧
      (env.ParseRssDate i.PubDate = none → env.ParseRssDate i.Date = none →
        env.ParseRssDate i.Published = none →
        (rssItem env σ i).2.clock = σ.clock + 1 ∧ st.Published = env.Now σ.clock ∧
          st.Updated = env.Now σ.clock ∧ st.Date = (env.Now σ.clock).Unix) ∧
      (∀ t, env.ParseRssDate i.PubDate = some t → st.Published = t ∧ st.Updated = t) ∧
      (∀ t, env.ParseRssDate i.PubDate = none → env.ParseRssDate i.Date = some t →
        st.Published = t ∧ st.Updated = t) ∧
      (∀ t, env.ParseRssDate i.PubDate = none → env.ParseRssDate i.Date = none →
        env.ParseRssDate i.Published = some t → st.Published = t ∧ st.Updated = t)) ∧
    ((∀ j ∈ r.Items, j.Title ≠ "" ∨ j.Description ≠ "") →
      (ParseFeed env b).feed ≠ none ∧
      ∃ st, (ParseFeed env b).stories[k]? = some st ∧
        (env.ParseRssDate i.PubDate = none → env.ParseRssDate i.Date = none →
          env.ParseRssDate i.Published = none →
          ∃ n, n = (r.Items.take k).countP (rssDatesUnparsed env) ∧
            n < (ParseFeed env b).clock ∧
            st.Published = env.Now n ∧ st.Updated = env.Now n ∧ st.Date = (env.Now n).Unix) ∧
        (∀ t, env.ParseRssDate i.PubDate = some t → st.Published = t ∧ st.Updated = t) ∧
        (∀ t, env.ParseRssDate i.PubDate = none → env.ParseRssDate i.Date = some t →
          st.Published = t ∧ st.Updated = t) ∧
        (∀ t, env.ParseRssDate i.PubDate = none → env.ParseRssDate i.Date = none →
          env.ParseRssDate i.Published = some t → st.Published = t ∧ st.Updated = t)) := by
  constructor
  · intro σ
    obtain ⟨st, hst, hp, hu, hd⟩ := rssItem_guarded env σ i hg
    refine ⟨st, by rw [hst], ?_, ?_, ?_, ?_⟩
    · intro h1 h2 h3
      have hnow := rssItemDate_now env σ i h1 h2 h3
      have hun : rssDatesUnparsed env i = true := by simp [rssDatesUnparsed, h1, h2, h3]
      refine ⟨?_, by rw [hp, hnow], by rw [hu, hnow], by rw [hd, hnow]⟩
      rw [hst]
      simp [rssItemDate_clock, hun]
    · intro t h1
      rw [hp, hu, rssItemDate_first env σ i t h1]
      exact ⟨rfl, rfl⟩
    · intro t h1 h2
      rw [hp, hu, rssItemDate_second env σ i t h1 h2]
      exact ⟨rfl, rfl⟩
    · intro t h1 h2 h3
      rw [hp, hu, rssItemDate_third env σ i t h1 h2 h3]
      exact ⟨rfl, rfl⟩
  · intro hall
    rw [ParseFeed_rss env b e r hatom hrss]
    obtain ⟨hfeed, -, hclock, hk⟩ := rssBranch_guarded env r hall
    obtain ⟨σk, st, hck, hget, hp, hu, hd⟩ := hk k i hi
    refine ⟨by simp [hfeed], st, hget, ?_, ?_, ?_, ?_⟩
    · intro h1 h2 h3
      have hnow := rssItemDate_now env σk i h1 h2 h3
      have hun : rssDatesUnparsed env i = true := by simp [rssDatesUnparsed, h1, h2, h3]
      refine ⟨σk.clock, hck, ?_, ?_, ?_, ?_⟩
      · rw [hclock, hck]
        exact countP_take_lt _ _ _ _ hi hun
      · rw [hp, hnow]
      · rw [hu, hnow]
      · rw [hd, hnow]
    · intro t h1
      rw [hp, hu, rssItemDate_first env σk i t h1]
      exact ⟨rfl, rfl⟩
    · intro t h1 h2
      rw [hp, hu, rssItemDate_second env σk i t h1 h2]
      exact ⟨rfl, rfl⟩
    · intro t h1 h2 h3
      rw [hp, hu, rssItemDate_third env σk i t h1 h2 h3]
      exact ⟨rfl, rfl⟩

/-- C9 (amended), at the third item of `rssUndatedDoc`: its story carries
the second clock reading of the call. -/
theorem C9_rss_unparsed_dates_use_now_witness :
    rssUndatedEnv.decodeAtom rssUndatedDoc = .error "expected element type <feed>" ∧
    rssUndatedEnv.decodeRss rssUndatedDoc = .ok rssUndatedTree ∧
    rssUndatedTree.Items[2]? = some rssUndatedThird ∧
    (rssUndatedThird.Title ≠ "" ∨ rssUndatedThird.Description ≠ "") ∧
    (∀ j ∈ rssUndatedTree.Items, j.Title ≠ "" ∨ j.Description ≠ "") ∧
    rssDatesUnparsed rssUndatedEnv rssUndatedThird = true ∧
    (ParseFeed rssUndatedEnv rssUndatedDoc).stories[2]?
      = some { Id := "Three", Title := "Three", Link := "Three",
               Published := sampleNow 1, Updated := sampleNow 1, Date := 1356998401 } ∧
    (ParseFeed rssUndatedEnv rssUndatedDoc).clock = 2 ∧
    (ParseFeed rssUndatedEnv rssUndatedDoc).feed ≠ none :=
  ⟨rfl, rfl, rfl, by decide, by decide, by decide, by decide, by decide,
    ((C9_rss_unparsed_dates_use_now rssUndatedEnv rssUndatedDoc _ rssUndatedTree rfl rfl
      2 rssUndatedThird rfl (by decide)).2 (by decide)).1⟩

/-- C10 (counterexample).  The first item of `rdfMixedDoc` has an `about`
and a date that does not parse; the second item has neither `about` nor link.
`ParseFeed` returns no feed and no stories: the parse fails and the first item
is not returned as a story. -/
theorem C10_item_not_returned_when_another_fails :
    rdfMixedEnv.decodeAtom rdfMixedDoc = .error "expected element type <feed>" ∧
    rdfMixedEnv.decodeRss rdfMixedDoc = .error "expected element type <rss>" ∧
    rdfMixedEnv.decodeRdf rdfMixedDoc = .ok rdfMixedTree ∧
    rdfMixedTree.Item[0]? = some rdfDatesFirst ∧
    rdfDatesFirst.About = "http://example.com/1" ∧
    rdfMixedEnv.ParseRssDate rdfDatesFirst.Date = none ∧
    (ParseFeed rdfMixedEnv rdfMixedDoc).feed = none ∧
    (ParseFeed rdfMixedEnv rdfMixedDoc).stories = [] :=
  ⟨rfl, rfl, rfl, rfl, rfl, rfl, by decide, by decide⟩

/-- C10 (amended).  For every RDF item that has an `about` or a link: the
loop body does not fail on it and returns a story, without reading the clock,
and in a tree all of whose items have an `about` or a link `ParseFeed` returns
a feed and that story as the k-th story, without any clock reading.  When the
date of the item does not parse, `Published` and `Updated` of the story are
the zero time; when it parses, they are the parsed time. -/
theorem C10_rdf_unparsed_date_is_zero (env : Env) (b : Bytes) (e₁ e₂ : String) (rdf : RDF)
    (hatom : env.decodeAtom b = .error e₁) (hrss : env.decodeRss b = .error e₂)
    (hrdf : env.decodeRdf b = .ok rdf)
    (k : Nat) (i : RdfItem) (hi : rdf.Item[k]? = some i)
    (hg : i.About ≠ "" ∨ i.Link ≠ "") :
    (∀ σ : St, ∃ st, (rdfItem env σ i).1 = some st ∧ (rdfItem env σ i).2.clock = σ.clock ∧
      (env.ParseRssDate i.Date = none →
        st.Published = Time.zero ∧ st.Updated = Time.zero) ∧
      (∀ t, env.ParseRssDate i.Date = some t → st.Published = t ∧ st.Updated = t)) ∧
    ((∀ j ∈ rdf.Item, j.About ≠ "" ∨ j.Link ≠ "") →
      (ParseFeed env b).feed ≠ none ∧ (ParseFeed env b).clock = 0 ∧
      ∃ st, (ParseFeed env b).stories[k]? = some st ∧
        (env.ParseRssDate i.Date = none →
          st.Published = Time.zero ∧ st.Updated = Time.zero) ∧
        (∀ t, env.ParseRssDate i.Date = some t → st.Published = t ∧ st.Updated = t)) := by
  constructor
  · intro σ
    obtain ⟨st, hst, hc, hsome, hnone⟩ := rdfItem_guarded env σ i hg
    exact ⟨st, hst, hc, fun hn => ⟨(hnone hn).1, (hnone hn).2.1⟩,
      fun t ht => ⟨(hsome t ht).1, (hsome t ht).2.1⟩⟩
  · intro hall
    rw [ParseFeed_rdf env b e₁ e₂ rdf hatom hrss hrdf]
    obtain ⟨hfeed, -, hclock, hk⟩ := rdfBranch_guarded env rdf hall
    obtain ⟨st, hget, hsome, hnone⟩ := hk k i hi
    refine ⟨by simp [hfeed], hclock, st, hget, ?_, ?_⟩
    · intro hn
      exact ⟨(hnone hn).1, (hnone hn).2.1⟩
    · intro t ht
      exact ⟨(hsome t ht).1, (hsome t ht).2.1⟩

/-- C10 (amended), at the first item of `rdfDatesDoc`, whose date does not
parse, in a tree whose two items have an `about` or a link. -/
theorem C10_rdf_unparsed_date_is_zero_witness :
    rdfDatesEnv.decodeAtom rdfDatesDoc = .error "expected element type <feed>" ∧
    rdfDatesEnv.decodeRss rdfDatesDoc = .error "expected element type <rss>" ∧
    rdfDatesEnv.decodeRdf rdfDatesDoc = .ok rdfDatesTree ∧
    rdfDatesTree.Item[0]? = some rdfDatesFirst ∧
    (rdfDatesFirst.About ≠ "" ∨ rdfDatesFirst.Link ≠ "") ∧
    (∀ j ∈ rdfDatesTree.Item, j.About ≠ "" ∨ j.Link ≠ "") ∧
    rdfDatesEnv.ParseRssDate rdfDatesFirst.Date = none ∧
    (ParseFeed rdfDatesEnv rdfDatesDoc).stories[0]?
      = some { Id := "http://example.com/1", Title := "One", Link := "http://example.com/1",
               Published := Time.zero, Updated := Time.zero, Date := 0 } ∧
    (ParseFeed rdfDatesEnv rdfDatesDoc).feed ≠ none ∧
    (ParseFeed rdfDatesEnv rdfDatesDoc).clock = 0 :=
  ⟨rfl, rfl, rfl, rfl, by decide, by decide, rfl, by decide,
    ((C10_rdf_unparsed_date_is_zero rdfDatesEnv rdfDatesDoc _ _ rdfDatesTree rfl rfl rfl
      0 rdfDatesFirst rfl (by decide)).2 (by decide)).1,
    ((C10_rdf_unparsed_date_is_zero rdfDatesEnv rdfDatesDoc _ _ rdfDatesTree rfl rfl rfl
      0 rdfDatesFirst rfl (by decide)).2 (by decide)).2.1⟩

/-! ## What `parseFix` keeps -/

theorem parseFixStory_frame (env : Env) (s : Story) :
    (parseFixStory env s).Id = s.Id ∧ (parseFixStory env s).Title = s.Title ∧
    (parseFixStory env s).Author = s.Author ∧ (parseFixStory env s).Published = s.Published ∧
    (parseFixStory env s).Updated = s.Updated ∧ (parseFixStory env s).Date = s.Date ∧
    (parseFixStory env s).content = s.content ∧ (parseFixStory env s).Summary = s.Summary := by
  unfold parseFixStory
  by_cases hl : s.Link = ""
  · simp only [hl, if_true]
    cases env.urlParse s.Id <;> exact ⟨rfl, rfl, rfl, rfl, rfl, rfl, rfl, rfl⟩
  · simp [hl]

theorem parseFixStory_linked (env : Env) (s : Story) (hl : s.Link ≠ "") :
    parseFixStory env s = s := by
  simp [parseFixStory, hl]

/-! ## The stories of a branch are the loop body on the items, in order -/

theorem atomBranch_stories (env : Env) (a : AtomFeed) :
    (atomBranch env a).feed = some (atomFeed env a) ∧
    (atomBranch env a).stories = a.Entry.map (fun i => parseFixStory env (atomEntry env i)) ∧
    (atomBranch env a).log = [] ∧ (atomBranch env a).clock = 0 := by
  simp [atomBranch, returnFix, parseFix, atomEntries_eq]

theorem rssItem_clock_only (env : Env) (σ σ' : St) (i : RssItem) (h : σ.clock = σ'.clock) :
    (rssItem env σ i).1 = (rssItem env σ' i).1 := by
  have hd : ∀ j : RssItem, (rssItemDate env σ j).1 = (rssItemDate env σ' j).1 := by
    intro j
    unfold rssItemDate
    cases env.ParseRssDate j.PubDate <;> cases env.ParseRssDate j.Date <;>
      cases env.ParseRssDate j.Published <;> simp [St.Now, St.Errorf, h]
  have hr : ∀ (j : RssItem) (st : Story),
      (rssItemRest env σ j st).1 = (rssItemRest env σ' j st).1 := by
    intro j st
    simp only [rssItemRest, hd j]
  unfold rssItem
  by_cases ht : i.Title = ""
  · by_cases hdesc : i.Description = ""
    · simp [ht, hdesc]
    · simp [ht, hdesc, hr]
  · simp [ht, hr]

theorem rdfItem_state_free (env : Env) (σ σ' : St) (i : RdfItem) :
    (rdfItem env σ i).1 = (rdfItem env σ' i).1 := by
  unfold rdfItem rdfItemDate
  by_cases ha : i.About = "" <;> by_cases hl : i.Link = "" <;>
    cases env.ParseRssDate i.Date <;> simp [ha, hl]

/-- The RSS branch on a tree all of whose items have a title or a
description: the k-th story is `parseFix` of what the loop body returns for
the k-th item when the clock has been read once for each earlier item without
a date that parses. -/
theorem rssBranch_items (env : Env) (r : Rss)
    (hall : ∀ i ∈ r.Items, i.Title ≠ "" ∨ i.Description ≠ "") (k : Nat) (i : RssItem)
    (hi : r.Items[k]? = some i) :
    ∃ st, (rssItem env { clock := (r.Items.take k).countP (rssDatesUnparsed env) } i).1 = some st ∧
      (rssBranch env r).stories[k]? = some (parseFixStory env st) := by
  obtain ⟨out, σ', hout, -, -, hk⟩ := rssItems_guarded env r.Items hall [] {}
  have hb : rssBranch env r = returnFix env (rssFeed env r) out σ' := by
    unfold rssBranch
    rw [hout]
    rfl
  obtain ⟨σk, st, hck, hitem, hget⟩ := hk k i hi
  refine ⟨st, ?_, ?_⟩
  · rw [← hitem]
    apply rssItem_clock_only
    simpa using hck.symm
  · rw [hb]
    simp [returnFix, parseFix, List.getElem?_map, hget]

theorem rssItems_unguarded (r : Rss)
    (hall : ¬ ∀ j ∈ r.Items, j.Title ≠ "" ∨ j.Description ≠ "") :
    ∃ j ∈ r.Items, j.Title = "" ∧ j.Description = "" := by
  by_contra hne
  apply hall
  intro j hj
  by_contra hg
  apply hne
  refine ⟨j, hj, ?_, ?_⟩
  · by_contra ht
    exact hg (Or.inl ht)
  · by_contra hd
    exact hg (Or.inr hd)

theorem rdfItems_unguarded (rdf : RDF)
    (hall : ¬ ∀ j ∈ rdf.Item, j.About ≠ "" ∨ j.Link ≠ "") :
    ∃ j ∈ rdf.Item, j.About = "" ∧ j.Link = "" := by
  by_contra hne
  apply hall
  intro j hj
  by_contra hg
  apply hne
  refine ⟨j, hj, ?_, ?_⟩
  · by_contra ht
    exact hg (Or.inl ht)
  · by_contra hd
    exact hg (Or.inr hd)

/-- A story that the RSS branch returns at position k is `parseFix` of what
the loop body returns for the k-th item. -/
theorem rssBranch_story (env : Env) (r : Rss) (k : Nat) (i : RssItem) (st : Story)
    (hi : r.Items[k]? = some i) (hst : (rssBranch env r).stories[k]? = some st) :
    (i.Title ≠ "" ∨ i.Description ≠ "") ∧
    ∃ st₀, (rssItem env { clock := (r.Items.take k).countP (rssDatesUnparsed env) } i).1
        = some st₀ ∧ st = parseFixStory env st₀ := by
  by_cases hall : ∀ j ∈ r.Items, j.Title ≠ "" ∨ j.Description ≠ ""
  · obtain ⟨st₀, hitem, hget⟩ := rssBranch_items env r hall k i hi
    rw [hget] at hst
    simp only [Option.some.injEq] at hst
    exact ⟨hall i (List.getElem?_mem hi), st₀, hitem, hst.symm⟩
  · rw [(rssBranch_untitled env r (rssItems_unguarded r hall)).2] at hst
    simp at hst

/-- The RDF branch on a tree all of whose items have an `about` or a link:
the k-th story is `parseFix` of what the loop body returns for the k-th item. -/
theorem rdfBranch_items (env : Env) (rdf : RDF)
    (hall : ∀ i ∈ rdf.Item, i.About ≠ "" ∨ i.Link ≠ "") (k : Nat) (i : RdfItem)
    (hi : rdf.Item[k]? = some i) :
    ∃ st, (rdfItem env {} i).1 = some st ∧
      (rdfBranch env rdf).stories[k]? = some (parseFixStory env st) := by
  obtain ⟨out, σ', hout, -, -, hk⟩ :=
    rdfItems_guarded env rdf.Item hall [] (rdfFeed env {} rdf).2
  have hb : rdfBranch env rdf = returnFix env (rdfFeed env {} rdf).1 out σ' := by
    unfold rdfBranch
    simp only [hout]
    rfl
  obtain ⟨σk, st, hitem, hget⟩ := hk k i hi
  refine ⟨st, ?_, ?_⟩
  · rw [← hitem]
    exact rdfItem_state_free env _ _ i
  · rw [hb]
    simp [returnFix, parseFix, List.getElem?_map, hget]

/-- A story that the RDF branch returns at position k is `parseFix` of what
the loop body returns for the k-th item. -/
theorem rdfBranch_story (env : Env) (rdf : RDF) (k : Nat) (i : RdfItem) (st : Story)
    (hi : rdf.Item[k]? = some i) (hst : (rdfBranch env rdf).stories[k]? = some st) :
    (i.About ≠ "" ∨ i.Link ≠ "") ∧
    ∃ st₀, (rdfItem env {} i).1 = some st₀ ∧ st = parseFixStory env st₀ := by
  by_cases hall : ∀ j ∈ rdf.Item, j.About ≠ "" ∨ j.Link ≠ ""
  · obtain ⟨st₀, hitem, hget⟩ := rdfBranch_items env rdf hall k i hi
    rw [hget] at hst
    simp only [Option.some.injEq] at hst
    exact ⟨hall i (List.getElem?_mem hi), st₀, hitem, hst.symm⟩
  · rw [(rdfBranch_noId env rdf (rdfItems_unguarded rdf hall)).2] at hst
    simp at hst

/-! ## The fields the loop bodies assign -/

theorem atomFeedLink_eq (links : List AtomLink) :
    atomFeedLink links "" = firstNonSelfHref links := by
  unfold firstNonSelfHref
  induction links with
  | nil => rfl
  | cons l rest ih =>
    unfold atomFeedLink
    by_cases h : l.Rel = "self"
    · simp only [h, ne_eq, not_true_eq_false, if_false, List.find?_cons, decide_False]
      exact ih
    · simp [h, List.find?_cons]

theorem rssItem_fields (env : Env) (σ : St) (i : RssItem) (st : Story)
    (h : (rssItem env σ i).1 = some st) :
    (st.content, st.Summary) = rssContentSpec env i ∧ st.Id = rssIdSpec i ∧
    st.Title = i.Title ∧ st.Link = i.Link ∧ st.Author = i.Author := by
  unfold rssItem at h
  by_cases ht : i.Title = ""
  · by_cases hd : i.Description = ""
    · simp [ht, hd] at h
    · simp only [ht, hd, ne_eq, not_true_eq_false, not_false_eq_true, if_true, if_false,
        Option.some.injEq] at h
      subst h
      simp only [rssItemRest, rssContentSpec, rssIdSpec, rssResolvedTitle, ht]
      by_cases hc : i.Content = "" <;> cases hg : i.Guid <;> simp [hc, hd]
  · simp only [ht, ne_eq, not_false_eq_true, if_true, Option.some.injEq] at h
    subst h
    simp only [rssItemRest, rssContentSpec, rssIdSpec, rssResolvedTitle]
    by_cases hc : i.Content = "" <;> by_cases hd : i.Description = "" <;>
      cases hg : i.Guid <;> simp [hc, hd, ht]

theorem rdfItem_fields (env : Env) (σ : St) (i : RdfItem) (st : Story)
    (h : (rdfItem env σ i).1 = some st) :
    st.Id = rdfIdSpec i ∧ st.Id ≠ "" ∧ st.Title = i.Title ∧ st.Link = i.Link ∧
    st.Author = i.Creator ∧
    (st.content, st.Summary) = env.Sanitize (env.UnescapeString i.Description) := by
  unfold rdfItem rdfItemDate at h
  by_cases ha : i.About = "" <;> by_cases hl : i.Link = "" <;>
    cases hd : env.ParseRssDate i.Date <;>
    simp only [ha, hl, hd, ne_eq, not_true_eq_false, not_false_eq_true, and_true, and_false,
      and_self, if_true, if_false, Option.some.injEq, reduceCtorEq] at h <;>
    (subst h; simp [rdfIdSpec, ha, hl])

theorem atomFeedLink_split (pre : List AtomLink) (l : AtomLink) (post : List AtomLink)
    (cur : String) (hpre : ∀ p ∈ pre, p.Rel = "self") (hl : l.Rel ≠ "self") :
    atomFeedLink (pre ++ l :: post) cur = l.Href := by
  induction pre with
  | nil => simp [atomFeedLink, hl]
  | cons p rest ih =>
    have hp : p.Rel = "self" := hpre p (List.mem_cons_self _ _)
    simp only [List.cons_append, atomFeedLink, hp, ne_eq, not_true_eq_false, if_false]
    exact ih (fun q hq => hpre q (List.mem_cons_of_mem _ hq))

theorem atomFeedLink_all_self (links : List AtomLink) (cur : String)
    (h : ∀ l ∈ links, l.Rel = "self") : atomFeedLink links cur = cur := by
  induction links with
  | nil => rfl
  | cons p rest ih =>
    have hp : p.Rel = "self" := h p (List.mem_cons_self _ _)
    simp only [atomFeedLink, hp, ne_eq, not_true_eq_false, if_false]
    exact ih (fun q hq => h q (List.mem_cons_of_mem _ hq))

theorem atomFeed_Link (env : Env) (a : AtomFeed) :
    (atomFeed env a).Link = atomFeedLink a.Link "" := by
  unfold atomFeed
  by_cases h : a.Updated = "" <;> simp [h]

theorem atomEntry_content (env : Env) (i : AtomEntry) :
    (i.Content = none → (atomEntry env i).content = "" ∧ (atomEntry env i).Summary = "") ∧
    (∀ c, i.Content = some c →
      ((atomEntry env i).content, (atomEntry env i).Summary) = env.Sanitize c.Body) := by
  unfold atomEntry
  constructor
  · intro h
    rw [h]
    cases i.Link <;> cases i.Author <;> exact ⟨rfl, rfl⟩
  · intro c h
    rw [h]

theorem atomEntry_withSanitize (env : Env) (f : String → String × String) (i : AtomEntry)
    (h : i.Content = none) : atomEntry (env.withSanitize f) i = atomEntry env i := by
  unfold atomEntry
  rw [h]
  rfl

/-- C11.  When the Atom decode succeeds, the `Link` of the returned feed is
the `Href` of the first link, in document order, whose `Rel` is not `"self"`,
and is empty when the feed has no link or every link has `Rel` `"self"`; for
the links `[rel=self href=x, href=y]` it is `y`. -/
theorem C11_atom_feed_link (env : Env) (b : Bytes) (a : AtomFeed)
    (hatom : env.decodeAtom b = .ok a) :
    ∃ f, (ParseFeed env b).feed = some f ∧ f.Link = firstNonSelfHref a.Link ∧
      (∀ pre l post, a.Link = pre ++ l :: post → (∀ p ∈ pre, p.Rel = "self") →
        l.Rel ≠ "self" → f.Link = l.Href) ∧
      ((∀ l ∈ a.Link, l.Rel = "self") → f.Link = "") ∧
      (a.Link = [] → f.Link = "") ∧
      (∀ x y, a.Link = [{ Rel := "self", Href := x }, { Href := y }] → f.Link = y) := by
  rw [ParseFeed_atom env b a hatom]
  refine ⟨atomFeed env a, (atomBranch_stories env a).1, ?_, ?_, ?_, ?_, ?_⟩
  · rw [atomFeed_Link, atomFeedLink_eq]
  · intro pre l post hsplit hpre hl
    rw [atomFeed_Link, hsplit]
    exact atomFeedLink_split pre l post "" hpre hl
  · intro h
    rw [atomFeed_Link]
    exact atomFeedLink_all_self a.Link "" h
  · intro h
    rw [atomFeed_Link, h]
    rfl
  · intro x y h
    rw [atomFeed_Link, h]
    have hne : ("" : String) ≠ "self" := by decide
    simp [atomFeedLink, hne]

/-- C11, at the document of the scenario in the specification. -/
theorem C11_atom_feed_link_witness :
    atomEnv.decodeAtom atomDoc = .ok atomTree ∧
    (ParseFeed atomEnv atomDoc).feed = some { Title := "A", Link := "y" } ∧
    ∃ f, (ParseFeed atomEnv atomDoc).feed = some f ∧ f.Link = firstNonSelfHref atomTree.Link :=
  ⟨rfl, by decide,
    (C11_atom_feed_link atomEnv atomDoc atomTree rfl).imp (fun _ h => ⟨h.1, h.2.1⟩)⟩

/-- C12.  For a decoded Atom entry without content, the content and the
summary of its story are empty and the loop body makes no `Sanitize` call for
it, so that the story is the same under every sanitizer; for an entry with a
content they are the pair `Sanitize` returns on the body, the only call made. -/
theorem C12_atom_entry_content (env : Env) (b : Bytes) (a : AtomFeed)
    (hatom : env.decodeAtom b = .ok a) (k : Nat) (i : AtomEntry) (hi : a.Entry[k]? = some i) :
    ∃ st, (ParseFeed env b).stories[k]? = some st ∧
      (i.Content = none →
        st.content = "" ∧ st.Summary = "" ∧ atomEntrySanitized i = [] ∧
        ∀ f : String → String × String,
          (ParseFeed (env.withSanitize f) b).stories[k]? = some st) ∧
      (∀ c, i.Content = some c →
        (st.content, st.Summary) = env.Sanitize c.Body ∧ atomEntrySanitized i = [c.Body]) := by
  have hget : ∀ env' : Env, env'.decodeAtom b = .ok a →
      (ParseFeed env' b).stories[k]? = some (parseFixStory env' (atomEntry env' i)) := by
    intro env' h'
    rw [ParseFeed_atom env' b a h', (atomBranch_stories env' a).2.1]
    simp [List.getElem?_map, hi]
  have hf := parseFixStory_frame env (atomEntry env i)
  refine ⟨parseFixStory env (atomEntry env i), hget env hatom, ?_, ?_⟩
  · intro hc
    refine ⟨?_, ?_, ?_, ?_⟩
    · rw [hf.2.2.2.2.2.2.1]
      exact ((atomEntry_content env i).1 hc).1
    · rw [hf.2.2.2.2.2.2.2]
      exact ((atomEntry_content env i).1 hc).2
    · simp [atomEntrySanitized, hc]
    · intro f
      rw [hget (env.withSanitize f) hatom, atomEntry_withSanitize env f i hc]
      rfl
  · intro c hc
    refine ⟨?_, by simp [atomEntrySanitized, hc]⟩
    rw [hf.2.2.2.2.2.2.1, hf.2.2.2.2.2.2.2]
    exact (atomEntry_content env i).2 c hc

/-- C12, at the first entry of `atomContentDoc`, which has no content, with
a sanitizer that returns `x` for everything. -/
theorem C12_atom_entry_content_witness :
    atomContentEnv.decodeAtom atomContentDoc = .ok atomContentTree ∧
    atomContentTree.Entry[0]? = some atomContentFirst ∧
    atomContentFirst.Content = none ∧
    (ParseFeed atomContentEnv atomContentDoc).stories.map (fun s => (s.Id, s.content, s.Summary))
      = [("1", "", ""), ("2", "Body", "Body")] ∧
    (ParseFeed (atomContentEnv.withSanitize (fun _ => ("x", "x")))
        atomContentDoc).stories.map (fun s => (s.Id, s.content, s.Summary))
      = [("1", "", ""), ("2", "x", "x")] ∧
    ∃ st, (ParseFeed atomContentEnv atomContentDoc).stories[0]? = some st ∧
      (atomContentFirst.Content = none →
        st.content = "" ∧ st.Summary = "" ∧ atomEntrySanitized atomContentFirst = [] ∧
        ∀ f : String → String × String,
          (ParseFeed (atomContentEnv.withSanitize f) atomContentDoc).stories[0]? = some st) ∧
      (∀ c, atomContentFirst.Content = some c →
        (st.content, st.Summary) = atomContentEnv.Sanitize c.Body ∧
        atomEntrySanitized atomContentFirst = [c.Body]) :=
  ⟨rfl, rfl, rfl, by decide, by decide,
    C12_atom_entry_content atomContentEnv atomContentDoc atomContentTree rfl 0
      atomContentFirst rfl⟩

/-- C13.  For every RSS item whose story is returned (an item that is not a
hard failure), the content and summary of the story are `Sanitize` of the
item content when that is non-empty; otherwise `Sanitize` of the description
when the resolved title and the description are both non-empty; otherwise
both empty.  An item with empty content, empty title and non-empty
description gets `Sanitize` of the description. -/
theorem C13_rss_item_content (env : Env) (b : Bytes) (e : String) (r : Rss)
    (hatom : env.decodeAtom b = .error e) (hrss : env.decodeRss b = .ok r)
    (k : Nat) (i : RssItem) (st : Story) (hi : r.Items[k]? = some i)
    (hst : (ParseFeed env b).stories[k]? = some st) :
    (i.Content ≠ "" → (st.content, st.Summary) = env.Sanitize i.Content) ∧
    (i.Content = "" → rssResolvedTitle i ≠ "" ∧ i.Description ≠ "" →
      (st.content, st.Summary) = env.Sanitize i.Description) ∧
    (i.Content = "" → ¬ (rssResolvedTitle i ≠ "" ∧ i.Description ≠ "") →
      st.content = "" ∧ st.Summary = "") ∧
    (i.Content = "" → i.Title = "" → i.Description ≠ "" →
      (st.content, st.Summary) = env.Sanitize i.Description) ∧
    (st.content, st.Summary) = rssContentSpec env i := by
  rw [ParseFeed_rss env b e r hatom hrss] at hst
  obtain ⟨-, st₀, hitem, rfl⟩ := rssBranch_story env r k i st hi hst
  have hf := parseFixStory_frame env st₀
  have hc := (rssItem_fields env _ i st₀ hitem).1
  rw [hf.2.2.2.2.2.2.1, hf.2.2.2.2.2.2.2, hc]
  refine ⟨?_, ?_, ?_, ?_, rfl⟩
  · intro h
    simp [rssContentSpec, h]
  · intro h h2
    simp [rssContentSpec, h, h2.1, h2.2]
  · intro h h2
    have : (rssContentSpec env i) = ("", "") := by
      unfold rssContentSpec
      rw [if_neg (by simpa using h), if_neg h2]
    rw [this] at hc
    simp only [Prod.mk.injEq] at hc
    exact hc
  · intro h ht hd
    simp [rssContentSpec, rssResolvedTitle, h, ht, hd]

/-- C13, at the second item of `rssContentDoc`: no content, no title and the
description `Hello`. -/
theorem C13_rss_item_content_witness :
    rssContentEnv.decodeAtom rssContentDoc = .error "expected element type <feed>" ∧
    rssContentEnv.decodeRss rssContentDoc = .ok rssContentTree ∧
    rssContentTree.Items[1]? = some rssContentSecond ∧
    (ParseFeed rssContentEnv rssContentDoc).stories[1]? = some rssContentSecondStory ∧
    (ParseFeed rssContentEnv rssContentDoc).stories.map (fun s => (s.content, s.Summary))
      = [("full one", "full one"), ("Hello", "Hello"), ("", "")] ∧
    rssContentSecond.Content = "" ∧ rssContentSecond.Title = "" ∧
    rssContentSecond.Description ≠ "" ∧
    (rssContentSecondStory.content, rssContentSecondStory.Summary)
      = rssContentEnv.Sanitize rssContentSecond.Description :=
  ⟨rfl, rfl, rfl, by decide, by decide, rfl, rfl, by decide,
    (C13_rss_item_content rssContentEnv rssContentDoc _ rssContentTree rfl rfl 1
      rssContentSecond rssContentSecondStory rfl (by decide)).2.2.2.1 rfl rfl (by decide)⟩

/-- C14.  For every RSS item whose story is returned (an item that is not a
hard failure): when the item has a guid, the `Id` of the story is the value of
the guid; when it has none, the `Id` is the title of the item, or its
description when the title is empty, and is not empty. -/
theorem C14_rss_item_id (env : Env) (b : Bytes) (e : String) (r : Rss)
    (hatom : env.decodeAtom b = .error e) (hrss : env.decodeRss b = .ok r)
    (k : Nat) (i : RssItem) (st : Story) (hi : r.Items[k]? = some i)
    (hst : (ParseFeed env b).stories[k]? = some st) :
    (∀ g, i.Guid = some g → st.Id = g.Guid) ∧
    (i.Guid = none → i.Title ≠ "" → st.Id = i.Title) ∧
    (i.Guid = none → i.Title = "" → st.Id = i.Description) ∧
    (i.Guid = none → st.Id ≠ "") ∧
    st.Id = rssIdSpec i := by
  rw [ParseFeed_rss env b e r hatom hrss] at hst
  obtain ⟨hg, st₀, hitem, rfl⟩ := rssBranch_story env r k i st hi hst
  have hf := parseFixStory_frame env st₀
  have hid := (rssItem_fields env _ i st₀ hitem).2.1
  rw [hf.1, hid]
  refine ⟨?_, ?_, ?_, ?_, rfl⟩
  · intro g h
    simp [rssIdSpec, h]
  · intro h ht
    simp [rssIdSpec, rssResolvedTitle, h, ht]
  · intro h ht
    simp [rssIdSpec, rssResolvedTitle, h, ht]
  · intro h
    by_cases ht : i.Title = ""
    · have hd : i.Description ≠ "" := by
        rcases hg with hg | hg
        · exact absurd ht hg
        · exact hg
      simpa [rssIdSpec, rssResolvedTitle, h, ht] using hd
    · simp [rssIdSpec, rssResolvedTitle, h, ht]

/-- C14, at the items of `rssContentDoc`: the third has a guid, the second
has neither guid nor title. -/
theorem C14_rss_item_id_witness :
    rssContentEnv.decodeAtom rssContentDoc = .error "expected element type <feed>" ∧
    rssContentEnv.decodeRss rssContentDoc = .ok rssContentTree ∧
    rssContentTree.Items[1]? = some rssContentSecond ∧
    (ParseFeed rssContentEnv rssContentDoc).stories[1]? = some rssContentSecondStory ∧
    (ParseFeed rssContentEnv rssContentDoc).stories.map (fun s => s.Id)
      = ["One", "Hello", "g3"] ∧
    rssContentSecond.Guid = none ∧ rssContentSecond.Title = "" ∧
    rssContentSecondStory.Id = rssContentSecond.Description :=
  ⟨rfl, rfl, rfl, by decide, by decide, rfl, rfl,
    (C14_rss_item_id rssContentEnv rssContentDoc _ rssContentTree rfl rfl 1
      rssContentSecond rssContentSecondStory rfl (by decide)).2.2.1 rfl rfl⟩

/-- C15.  For every story returned from the RDF path, the `Id` is the
`about` attribute of the item when that is non-empty and the link of the item
otherwise; every story of a successful RDF parse has a non-empty `Id`. -/
theorem C15_rdf_story_id (env : Env) (b : Bytes) (e₁ e₂ : String) (rdf : RDF)
    (hatom : env.decodeAtom b = .error e₁) (hrss : env.decodeRss b = .error e₂)
    (hrdf : env.decodeRdf b = .ok rdf) :
    (∀ (k : Nat) (i : RdfItem) (st : Story), rdf.Item[k]? = some i →
      (ParseFeed env b).stories[k]? = some st →
        (i.About ≠ "" → st.Id = i.About) ∧ (i.About = "" → st.Id = i.Link) ∧
        st.Id = rdfIdSpec i) ∧
    (∀ st ∈ (ParseFeed env b).stories, st.Id ≠ "") := by
  rw [ParseFeed_rdf env b e₁ e₂ rdf hatom hrss hrdf]
  constructor
  · intro k i st hi hst
    obtain ⟨-, st₀, hitem, rfl⟩ := rdfBranch_story env rdf k i st hi hst
    rw [(parseFixStory_frame env st₀).1, (rdfItem_fields env _ i st₀ hitem).1]
    refine ⟨?_, ?_, rfl⟩
    · intro h
      simp [rdfIdSpec, h]
    · intro h
      simp [rdfIdSpec, h]
  · intro st hst
    by_cases hall : ∀ j ∈ rdf.Item, j.About ≠ "" ∨ j.Link ≠ ""
    · obtain ⟨k, hget⟩ := List.mem_iff_getElem?.mp hst
      have hlt : k < rdf.Item.length := by
        rw [← (rdfBranch_guarded env rdf hall).2.1]
        exact (List.getElem?_eq_some_iff.mp hget).1
      obtain ⟨-, st₀, hitem, rfl⟩ :=
        rdfBranch_story env rdf k (rdf.Item[k]) st (List.getElem?_eq_getElem hlt) hget
      rw [(parseFixStory_frame env st₀).1]
      exact (rdfItem_fields env _ _ st₀ hitem).2.1
    · rw [(rdfBranch_noId env rdf (rdfItems_unguarded rdf hall)).2] at hst
      simp at hst

/-- C15, at `rdfDatesDoc`: the first item has an `about`, the second only a
link. -/
theorem C15_rdf_story_id_witness :
    rdfDatesEnv.decodeAtom rdfDatesDoc = .error "expected element type <feed>" ∧
    rdfDatesEnv.decodeRss rdfDatesDoc = .error "expected element type <rss>" ∧
    rdfDatesEnv.decodeRdf rdfDatesDoc = .ok rdfDatesTree ∧
    (ParseFeed rdfDatesEnv rdfDatesDoc).stories.map (fun s => s.Id)
      = ["http://example.com/1", "http://example.com/2"] ∧
    (∀ st ∈ (ParseFeed rdfDatesEnv rdfDatesDoc).stories, st.Id ≠ "") :=
  ⟨rfl, rfl, rfl, by decide,
    (C15_rdf_story_id rdfDatesEnv rdfDatesDoc _ _ rdfDatesTree rfl rfl rfl).2⟩

/-! ## Another clock -/

theorem atomBranch_withNow (env : Env) (now : Nat → Time) (a : AtomFeed) :
    atomBranch (env.withNow now) a = atomBranch env a := by
  unfold atomBranch
  rw [atomEntries_eq, atomEntries_eq]
  rfl

theorem rdfItems_withNow (env : Env) (now : Nat → Time) (items : List RdfItem)
    (s : List Story) (σ : St) :
    rdfItems (env.withNow now) items s σ = rdfItems env items s σ := by
  induction items generalizing s σ with
  | nil => rfl
  | cons i rest ih =>
    unfold rdfItems
    have h : rdfItem (env.withNow now) σ i = rdfItem env σ i := rfl
    rw [h]
    rcases rdfItem env σ i with ⟨_ | st, σ'⟩
    · rfl
    · exact ih _ _

theorem rdfBranch_withNow (env : Env) (now : Nat → Time) (rdf : RDF) :
    rdfBranch (env.withNow now) rdf = rdfBranch env rdf := by
  unfold rdfBranch
  have h : rdfFeed (env.withNow now) {} rdf = rdfFeed env {} rdf := rfl
  simp only [h, rdfItems_withNow]
  rfl

theorem rssItemDate_withNow (env : Env) (now : Nat → Time) (σ : St) (i : RssItem)
    (h : rssDatesUnparsed env i = false) :
    rssItemDate (env.withNow now) σ i = rssItemDate env σ i := by
  unfold rssItemDate
  have h1 : (env.withNow now).ParseRssDate = env.ParseRssDate := rfl
  rw [h1]
  unfold rssDatesUnparsed at h
  cases hp : env.ParseRssDate i.PubDate <;> cases hd : env.ParseRssDate i.Date <;>
    cases hq : env.ParseRssDate i.Published <;> simp [hp, hd, hq] at h ⊢

theorem rssItem_withNow (env : Env) (now : Nat → Time) (σ : St) (i : RssItem)
    (h : rssDatesUnparsed env i = false) :
    rssItem (env.withNow now) σ i = rssItem env σ i := by
  have hr : ∀ (j : RssItem) (st : Story), rssDatesUnparsed env j = false →
      rssItemRest (env.withNow now) σ j st = rssItemRest env σ j st := by
    intro j st hj
    simp only [rssItemRest, rssItemDate_withNow env now σ j hj]
    rfl
  unfold rssItem
  by_cases ht : i.Title = ""
  · by_cases hd : i.Description = ""
    · simp [ht, hd]
    · simp only [ht, hd, ne_eq, not_true_eq_false, not_false_eq_true, if_true, if_false]
      have hj : rssDatesUnparsed env { i with Title := i.Description } = false := h
      rw [hr _ _ hj]
  · simp only [ht, ne_eq, not_false_eq_true, if_true]
    rw [hr _ _ h]

theorem parseFixStory_Link_congr (env : Env) (s t : Story) (hl : s.Link = t.Link)
    (hid : s.Id = t.Id) : (parseFixStory env s).Link = (parseFixStory env t).Link := by
  unfold parseFixStory
  rw [hl, hid]
  by_cases h : t.Link = ""
  · simp only [h, if_true]
    cases env.urlParse t.Id <;> simp [hl, h]
  · simp [h, hl]

/-- Two runs that return the same outcome agree on everything. -/
theorem agree_of_eq (R R' : Result) (h : R' = R) :
    R'.feed = R.feed ∧ R'.stories.length = R.stories.length ∧
    ∀ (k : Nat) (st st' : Story), R.stories[k]? = some st → R'.stories[k]? = some st' →
      st' = st := by
  subst h
  refine ⟨rfl, rfl, ?_⟩
  intro k st st' h1 h2
  rw [h1] at h2
  exact (Option.some.inj h2).symm

theorem rssBranch_withNow (env : Env) (now : Nat → Time) (r : Rss) :
    (rssBranch (env.withNow now) r).feed = (rssBranch env r).feed ∧
    (rssBranch (env.withNow now) r).stories.length = (rssBranch env r).stories.length ∧
    ∀ (k : Nat) (st st' : Story), (rssBranch env r).stories[k]? = some st →
      (rssBranch (env.withNow now) r).stories[k]? = some st' →
      st'.Id = st.Id ∧ st'.Title = st.Title ∧ st'.Link = st.Link ∧ st'.Author = st.Author ∧
      st'.content = st.content ∧ st'.Summary = st.Summary ∧
      (st' = st ∨ ∃ i, r.Items[k]? = some i ∧ rssDatesUnparsed env i = true) := by
  by_cases hall : ∀ j ∈ r.Items, j.Title ≠ "" ∨ j.Description ≠ ""
  · have g := rssBranch_guarded env r hall
    have g' := rssBranch_guarded (env.withNow now) r hall
    refine ⟨by rw [g.1, g'.1]; rfl, by rw [g.2.1, g'.2.1], ?_⟩
    intro k st st' hst hst'
    have hlt : k < r.Items.length := by
      rw [← g.2.1]
      exact (List.getElem?_eq_some_iff.mp hst).1
    have hi : r.Items[k]? = some (r.Items[k]) := List.getElem?_eq_getElem hlt
    obtain ⟨-, st₀, hitem, rfl⟩ := rssBranch_story env r k _ st hi hst
    obtain ⟨-, st₁, hitem', rfl⟩ := rssBranch_story (env.withNow now) r k _ st' hi hst'
    have f₀ := rssItem_fields env _ _ st₀ hitem
    have f₁ := rssItem_fields (env.withNow now) _ _ st₁ hitem'
    have hc : (st₁.content, st₁.Summary) = (st₀.content, st₀.Summary) := by
      rw [f₀.1, f₁.1]
      rfl
    simp only [Prod.mk.injEq] at hc
    have hid : st₁.Id = st₀.Id := by rw [f₀.2.1, f₁.2.1]
    have htitle : st₁.Title = st₀.Title := by rw [f₀.2.2.1, f₁.2.2.1]
    have hlink : st₁.Link = st₀.Link := by rw [f₀.2.2.2.1, f₁.2.2.2.1]
    have hauthor : st₁.Author = st₀.Author := by rw [f₀.2.2.2.2, f₁.2.2.2.2]
    have p₀ := parseFixStory_frame env st₀
    have p₁ := parseFixStory_frame (env.withNow now) st₁
    refine ⟨by rw [p₀.1, p₁.1, hid], by rw [p₀.2.1, p₁.2.1, htitle], ?_,
      by rw [p₀.2.2.1, p₁.2.2.1, hauthor], by rw [p₀.2.2.2.2.2.2.1, p₁.2.2.2.2.2.2.1, hc.1],
      by rw [p₀.2.2.2.2.2.2.2, p₁.2.2.2.2.2.2.2, hc.2], ?_⟩
    · exact parseFixStory_Link_congr env st₁ st₀ hlink hid
    · by_cases hun : rssDatesUnparsed env (r.Items[k]) = true
      · exact Or.inr ⟨_, hi, hun⟩
      · left
        have hfalse : rssDatesUnparsed env (r.Items[k]) = false := by simpa using hun
        have hsame := rssItem_withNow env now
          { clock := (r.Items.take k).countP (rssDatesUnparsed env) } (r.Items[k]) hfalse
        have hitem'' : (rssItem (env.withNow now)
            { clock := (r.Items.take k).countP (rssDatesUnparsed env) } (r.Items[k])).1
              = some st₁ := hitem'
        rw [hsame, hitem] at hitem''
        rw [Option.some.inj hitem'']
        rfl
  · have hbad := rssItems_unguarded r hall
    have g := rssBranch_untitled env r hbad
    have g' := rssBranch_untitled (env.withNow now) r hbad
    refine ⟨by rw [g.1, g'.1], by rw [g.2, g'.2], ?_⟩
    intro k st st' hst
    rw [g.2] at hst
    simp at hst

/-! ## The diagnostics of a hard failure -/

theorem rssItemDate_log (env : Env) (σ : St) (i : RssItem) :
    ∃ l, (rssItemDate env σ i).2.log = σ.log ++ l ∧
      ∀ d ∈ l, ∃ p q s, d = Diag.rssItemDate p q s := by
  refine ⟨if rssDatesUnparsed env i then [.rssItemDate i.PubDate i.Date i.Published] else [],
    ?_, ?_⟩
  · unfold rssItemDate rssDatesUnparsed
    cases env.ParseRssDate i.PubDate <;> cases env.ParseRssDate i.Date <;>
      cases env.ParseRssDate i.Published <;> simp [St.Now, St.Errorf]
  · intro d hd
    split at hd
    · simp only [List.mem_singleton] at hd
      exact ⟨_, _, _, hd⟩
    · simp at hd

theorem rssItem_log (env : Env) (σ : St) (i : RssItem) :
    ((rssItem env σ i).1 = none ∧ (rssItem env σ i).2.log = σ.log ++ [.rssRequiresTitle]) ∨
    ((rssItem env σ i).1 ≠ none ∧ ∃ l, (rssItem env σ i).2.log = σ.log ++ l ∧
      ∀ d ∈ l, ∃ p q s, d = Diag.rssItemDate p q s) := by
  by_cases hg : i.Title ≠ "" ∨ i.Description ≠ ""
  · right
    obtain ⟨st, hst, -⟩ := rssItem_guarded env σ i hg
    rw [hst]
    exact ⟨by simp, rssItemDate_log env σ i⟩
  · left
    have ht : i.Title = "" := by
      by_contra h
      exact hg (Or.inl h)
    have hd : i.Description = "" := by
      by_contra h
      exact hg (Or.inr h)
    simp [rssItem, ht, hd, St.Errorf]

theorem rssItems_log (env : Env) (items : List RssItem) (s : List Story) (σ : St)
    (h : (rssItems env items s σ).1 = none) :
    ∃ pre, (rssItems env items s σ).2.log = σ.log ++ pre ++ [.rssRequiresTitle] ∧
      ∀ d ∈ pre, ∃ p q s, d = Diag.rssItemDate p q s := by
  induction items generalizing s σ with
  | nil => simp [rssItems] at h
  | cons i rest ih =>
    unfold rssItems at h ⊢
    rcases hres : rssItem env σ i with ⟨_ | st, σ₁⟩
    · rcases rssItem_log env σ i with ⟨-, hlog⟩ | ⟨hne, -⟩
      · rw [hres] at hlog
        exact ⟨[], by simpa using hlog, by simp⟩
      · rw [hres] at hne
        exact absurd rfl hne
    · rw [hres] at h
      simp only at h ⊢
      rcases rssItem_log env σ i with ⟨hnone, -⟩ | ⟨-, l, hlog, hl⟩
      · rw [hres] at hnone
        cases hnone
      · rw [hres] at hlog
        simp only at hlog
        obtain ⟨pre, hpre, hdiag⟩ := ih (s ++ [st]) σ₁ h
        refine ⟨l ++ pre, ?_, ?_⟩
        · rw [hpre, hlog]
          simp
        · intro d hd
          rcases List.mem_append.mp hd with hd | hd
          · exact hl d hd
          · exact hdiag d hd

theorem rdfItem_log (env : Env) (σ : St) (i : RdfItem) :
    ((rdfItem env σ i).1 = none ∧ i.About = "" ∧ i.Link = "" ∧
      (rdfItem env σ i).2.log = σ.log ++ [.rdfNoStoryId i]) ∨
    ((rdfItem env σ i).1 ≠ none ∧ ∃ l, (rdfItem env σ i).2.log = σ.log ++ l ∧
      ∀ d ∈ l, ∃ s, d = Diag.rdfDate s) := by
  unfold rdfItem rdfItemDate
  by_cases ha : i.About = "" <;> by_cases hl : i.Link = "" <;>
    cases hd : env.ParseRssDate i.Date <;>
    simp [ha, hl, St.Errorf]

theorem rdfItems_log (env : Env) (items : List RdfItem) (s : List Story) (σ : St)
    (h : (rdfItems env items s σ).1 = none) :
    ∃ pre i, i ∈ items ∧ i.About = "" ∧ i.Link = "" ∧
      (rdfItems env items s σ).2.log = σ.log ++ pre ++ [.rdfNoStoryId i] ∧
      ∀ d ∈ pre, ∃ s, d = Diag.rdfDate s := by
  induction items generalizing s σ with
  | nil => simp [rdfItems] at h
  | cons i rest ih =>
    unfold rdfItems at h ⊢
    rcases hres : rdfItem env σ i with ⟨_ | st, σ₁⟩
    · rcases rdfItem_log env σ i with ⟨-, ha, hl, hlog⟩ | ⟨hne, -⟩
      · rw [hres] at hlog
        exact ⟨[], i, List.mem_cons_self _ _, ha, hl, by simpa using hlog, by simp⟩
      · rw [hres] at hne
        exact absurd rfl hne
    · rw [hres] at h
      simp only at h ⊢
      rcases rdfItem_log env σ i with ⟨hnone, -⟩ | ⟨-, l, hlog, hl⟩
      · rw [hres] at hnone
        cases hnone
      · rw [hres] at hlog
        simp only at hlog
        obtain ⟨pre, j, hj, ha, hlk, hpre, hdiag⟩ := ih (s ++ [st]) σ₁ h
        refine ⟨l ++ pre, j, List.mem_cons_of_mem _ hj, ha, hlk, ?_, ?_⟩
        · rw [hpre, hlog]
          simp
        · intro d hd
          rcases List.mem_append.mp hd with hd | hd
          · exact hl d hd
          · exact hdiag d hd

theorem rdfFeed_log (env : Env) (rdf : RDF) :
    ∃ l, (rdfFeed env {} rdf).2.log = l ∧ ∀ d ∈ l, ∃ s, d = Diag.rdfDate s := by
  unfold rdfFeed
  cases rdf.Channel with
  | none => refine ⟨[], ?_, ?_⟩ <;> simp
  | some ch =>
    cases hd : env.ParseRssDate ch.Date with
    | none => refine ⟨[.rdfDate ch.Date], ?_, ?_⟩ <;> simp [hd, St.Errorf]
    | some t => refine ⟨[], ?_, ?_⟩ <;> simp [hd]

/-- C17.  Two runs of `ParseFeed` on the same bytes with the same
collaborators and different clocks agree on the feed (so on success and
failure), on the number of stories and, position by position, on `Id`,
`Title`, `Link`, `Author`, content and `Summary`; the two stories at a position
are equal altogether unless the input is RSS and none of `PubDate`, `Date` and
`Published` of the item at that position parses.  When the Atom decode
succeeds, and when the Atom and RSS decodes both fail (RDF inputs), the two
outcomes are identical. -/
theorem C17_reruns_agree (env : Env) (now : Nat → Time) (b : Bytes) :
    (ParseFeed (env.withNow now) b).feed = (ParseFeed env b).feed ∧
    (ParseFeed (env.withNow now) b).stories.length = (ParseFeed env b).stories.length ∧
    (∀ (k : Nat) (st st' : Story), (ParseFeed env b).stories[k]? = some st →
      (ParseFeed (env.withNow now) b).stories[k]? = some st' →
      st'.Id = st.Id ∧ st'.Title = st.Title ∧ st'.Link = st.Link ∧ st'.Author = st.Author ∧
      st'.content = st.content ∧ st'.Summary = st.Summary ∧
      (st' = st ∨ ∃ e r i, env.decodeAtom b = .error e ∧ env.decodeRss b = .ok r ∧
        r.Items[k]? = some i ∧ env.ParseRssDate i.PubDate = none ∧
        env.ParseRssDate i.Date = none ∧ env.ParseRssDate i.Published = none)) ∧
    (∀ a, env.decodeAtom b = .ok a → ParseFeed (env.withNow now) b = ParseFeed env b) ∧
    (∀ e₁ e₂, env.decodeAtom b = .error e₁ → env.decodeRss b = .error e₂ →
      ParseFeed (env.withNow now) b = ParseFeed env b) := by
  have hA : ∀ a, env.decodeAtom b = .ok a →
      ParseFeed (env.withNow now) b = ParseFeed env b := by
    intro a ha
    rw [ParseFeed_atom (env.withNow now) b a ha, ParseFeed_atom env b a ha]
    exact atomBranch_withNow env now a
  have hD : ∀ e₁ e₂, env.decodeAtom b = .error e₁ → env.decodeRss b = .error e₂ →
      ParseFeed (env.withNow now) b = ParseFeed env b := by
    intro e₁ e₂ ha hr
    cases hd : env.decodeRdf b with
    | ok rdf =>
      rw [ParseFeed_rdf (env.withNow now) b e₁ e₂ rdf ha hr hd,
        ParseFeed_rdf env b e₁ e₂ rdf ha hr hd]
      exact rdfBranch_withNow env now rdf
    | error e₃ =>
      have h1 : (env.withNow now).decodeAtom b = .error e₁ := ha
      have h2 : (env.withNow now).decodeRss b = .error e₂ := hr
      have h3 : (env.withNow now).decodeRdf b = .error e₃ := hd
      unfold ParseFeed
      simp only [h1, h2, h3, ha, hr, hd]
  have hsame : ParseFeed (env.withNow now) b = ParseFeed env b →
      (ParseFeed (env.withNow now) b).feed = (ParseFeed env b).feed ∧
      (ParseFeed (env.withNow now) b).stories.length = (ParseFeed env b).stories.length ∧
      (∀ (k : Nat) (st st' : Story), (ParseFeed env b).stories[k]? = some st →
        (ParseFeed (env.withNow now) b).stories[k]? = some st' →
        st'.Id = st.Id ∧ st'.Title = st.Title ∧ st'.Link = st.Link ∧ st'.Author = st.Author ∧
        st'.content = st.content ∧ st'.Summary = st.Summary ∧
        (st' = st ∨ ∃ e r i, env.decodeAtom b = .error e ∧ env.decodeRss b = .ok r ∧
          r.Items[k]? = some i ∧ env.ParseRssDate i.PubDate = none ∧
          env.ParseRssDate i.Date = none ∧ env.ParseRssDate i.Published = none)) := by
    intro heq
    obtain ⟨h1, h2, h3⟩ := agree_of_eq _ _ heq
    refine ⟨h1, h2, ?_⟩
    intro k st st' hst hst'
    have := h3 k st st' hst hst'
    subst this
    exact ⟨rfl, rfl, rfl, rfl, rfl, rfl, Or.inl rfl⟩
  have cA : (∃ a, env.decodeAtom b = .ok a) ∨ (∃ e, env.decodeAtom b = .error e) := by
    cases env.decodeAtom b with
    | ok a => exact Or.inl ⟨a, rfl⟩
    | error e => exact Or.inr ⟨e, rfl⟩
  have cR : (∃ r, env.decodeRss b = .ok r) ∨ (∃ e, env.decodeRss b = .error e) := by
    cases env.decodeRss b with
    | ok r => exact Or.inl ⟨r, rfl⟩
    | error e => exact Or.inr ⟨e, rfl⟩
  rcases cA with ⟨a, ha⟩ | ⟨e, ha⟩
  · obtain ⟨h1, h2, h3⟩ := hsame (hA a ha)
    exact ⟨h1, h2, h3, hA, hD⟩
  · rcases cR with ⟨r, hr⟩ | ⟨e₂, hr⟩
    · have e1 := ParseFeed_rss (env.withNow now) b e r ha hr
      have e2 := ParseFeed_rss env b e r ha hr
      obtain ⟨g1, g2, g3⟩ := rssBranch_withNow env now r
      refine ⟨by rw [e1, e2, g1], by rw [e1, e2, g2], ?_, hA, hD⟩
      intro k st st' hst hst'
      rw [e2] at hst
      rw [e1] at hst'
      obtain ⟨q1, q2, q3, q4, q5, q6, q7⟩ := g3 k st st' hst hst'
      refine ⟨q1, q2, q3, q4, q5, q6, ?_⟩
      rcases q7 with q7 | ⟨i, hi, hun⟩
      · exact Or.inl q7
      · right
        refine ⟨e, r, i, ha, hr, hi, ?_⟩
        unfold rssDatesUnparsed at hun
        cases hp : env.ParseRssDate i.PubDate <;> cases hd : env.ParseRssDate i.Date <;>
          cases hq : env.ParseRssDate i.Published <;> simp [hp, hd, hq] at hun ⊢
    · obtain ⟨h1, h2, h3⟩ := hsame (hD e e₂ ha hr)
      exact ⟨h1, h2, h3, hA, hD⟩

/-- C17, at `rssUndatedDoc` with two clocks: the stories of the first and
third item, which have no date that parses, differ in their dates and in
nothing else. -/
theorem C17_reruns_agree_witness :
    (ParseFeed rssUndatedEnv rssUndatedDoc).stories.map
        (fun s => (s.Id, s.Title, s.Link, s.Published, s.Date))
      = [("One", "One", "One", sampleNow 0, 1356998400),
         ("Two", "Two", "Two", ⟨63271897445, 0, some 0⟩, 1136300645),
         ("Three", "Three", "Three", sampleNow 1, 1356998401)] ∧
    (ParseFeed (rssUndatedEnv.withNow laterNow) rssUndatedDoc).stories.map
        (fun s => (s.Id, s.Title, s.Link, s.Published, s.Date))
      = [("One", "One", "One", laterNow 0, 1388534400),
         ("Two", "Two", "Two", ⟨63271897445, 0, some 0⟩, 1136300645),
         ("Three", "Three", "Three", laterNow 1, 1388534460)] ∧
    (ParseFeed (rssUndatedEnv.withNow laterNow) rssUndatedDoc).feed
      = (ParseFeed rssUndatedEnv rssUndatedDoc).feed ∧
    (ParseFeed (rssUndatedEnv.withNow laterNow) rssUndatedDoc).stories.length
      = (ParseFeed rssUndatedEnv rssUndatedDoc).stories.length ∧
    (atomEnv.decodeAtom atomDoc = .ok atomTree ∧
      ParseFeed (atomEnv.withNow laterNow) atomDoc = ParseFeed atomEnv atomDoc) :=
  ⟨by decide, by decide,
    (C17_reruns_agree rssUndatedEnv laterNow rssUndatedDoc).1,
    (C17_reruns_agree rssUndatedEnv laterNow rssUndatedDoc).2.1,
    rfl, (C17_reruns_agree atomEnv laterNow atomDoc).2.2.2.1 atomTree rfl⟩

/-- C18 (counterexample).  On `rssUntitledDoc` the Atom decode fails, the
RSS decode succeeds and the second item is a hard failure: `ParseFeed`
returns total failure and the only diagnostic is the one of the hard failure;
the decode error of the Atom attempt is not emitted.  The same on
`rdfNoIdDoc`, where the Atom and RSS decode errors are not emitted. -/
theorem C18_hard_failure_omits_decode_errors :
    rssUntitledEnv.decodeAtom rssUntitledDoc = .error "expected element type <feed>" ∧
    (ParseFeed rssUntitledEnv rssUntitledDoc).feed = none ∧
    (ParseFeed rssUntitledEnv rssUntitledDoc).stories = [] ∧
    (ParseFeed rssUntitledEnv rssUntitledDoc).log = [.rssRequiresTitle] ∧
    rdfNoIdEnv.decodeAtom rdfNoIdDoc = .error "expected element type <feed>" ∧
    rdfNoIdEnv.decodeRss rdfNoIdDoc = .error "expected element type <rss>" ∧
    (ParseFeed rdfNoIdEnv rdfNoIdDoc).feed = none ∧
    (ParseFeed rdfNoIdEnv rdfNoIdDoc).log
      = [.rdfNoStoryId { Title := "Two", Date := "Tue, 03 Jan 2006 15:04:05 +0000" }] :=
  ⟨rfl, by decide, by decide, by decide, rfl, rfl, by decide, by decide⟩

/-- C18 (amended).  When none of the three decodes succeeds, `ParseFeed`
returns total failure and emits exactly the three decode errors, of the Atom,
the RSS and the RDF attempt in this order.  When the RSS decode succeeded and
an item has neither title nor description, the diagnostics are date
diagnostics of earlier items followed by the diagnostic of the hard failure;
when the RDF decode succeeded and an item has neither `about` nor link, they
are date diagnostics followed by the diagnostic of the hard failure on that
item.  No decode error is emitted in these two cases. -/
theorem C18_total_failure_diagnostics (env : Env) (b : Bytes) :
    (∀ e₁ e₂ e₃, env.decodeAtom b = .error e₁ → env.decodeRss b = .error e₂ →
      env.decodeRdf b = .error e₃ →
      (ParseFeed env b).feed = none ∧ (ParseFeed env b).stories = [] ∧
      (ParseFeed env b).log = [.atomParseError e₁, .xmlParseError e₂, .rdfParseError e₃]) ∧
    (∀ e₁ r, env.decodeAtom b = .error e₁ → env.decodeRss b = .ok r →
      (∃ i ∈ r.Items, i.Title = "" ∧ i.Description = "") →
      ∃ pre, (ParseFeed env b).log = pre ++ [.rssRequiresTitle] ∧
        ∀ d ∈ pre, ∃ p q s, d = Diag.rssItemDate p q s) ∧
    (∀ e₁ e₂ rdf, env.decodeAtom b = .error e₁ → env.decodeRss b = .error e₂ →
      env.decodeRdf b = .ok rdf → (∃ i ∈ rdf.Item, i.About = "" ∧ i.Link = "") →
      ∃ pre i, i ∈ rdf.Item ∧ i.About = "" ∧ i.Link = "" ∧
        (ParseFeed env b).log = pre ++ [.rdfNoStoryId i] ∧
        ∀ d ∈ pre, ∃ s, d = Diag.rdfDate s) := by
  refine ⟨?_, ?_, ?_⟩
  · intro e₁ e₂ e₃ h1 h2 h3
    unfold ParseFeed
    simp [h1, h2, h3, returnNil, St.Errorf]
  · intro e₁ r h1 h2 hbad
    rw [ParseFeed_rss env b e₁ r h1 h2]
    have hnone := rssItems_untitled env r.Items hbad [] {}
    obtain ⟨pre, hlog, hpre⟩ := rssItems_log env r.Items [] {} hnone
    refine ⟨pre, ?_, hpre⟩
    unfold rssBranch
    rcases hres : rssItems env r.Items [] {} with ⟨_ | s, σ⟩
    · rw [hres] at hlog
      simpa [returnNil] using hlog
    · rw [hres] at hnone
      cases hnone
  · intro e₁ e₂ rdf h1 h2 h3 hbad
    rw [ParseFeed_rdf env b e₁ e₂ rdf h1 h2 h3]
    have hnone := rdfItems_noId env rdf.Item hbad [] (rdfFeed env {} rdf).2
    obtain ⟨pre, i, hi, ha, hl, hlog, hpre⟩ :=
      rdfItems_log env rdf.Item [] (rdfFeed env {} rdf).2 hnone
    obtain ⟨l, hfl, hfd⟩ := rdfFeed_log env rdf
    refine ⟨l ++ pre, i, hi, ha, hl, ?_, ?_⟩
    · unfold rdfBranch
      simp only
      rcases hres : rdfItems env rdf.Item [] (rdfFeed env {} rdf).2 with ⟨_ | s, σ⟩
      · rw [hres] at hlog
        simp only at hlog
        simp only [returnNil]
        rw [hlog, hfl]
      · rw [hres] at hnone
        cases hnone
    · intro d hd
      rcases List.mem_append.mp hd with hd | hd
      · exact hfd d hd
      · exact hpre d hd

/-- C18 (amended), at a document that is none of the three dialects. -/
theorem C18_total_failure_diagnostics_witness :
    fixEnv.decodeAtom htmlDoc = .error "expected element type <feed>" ∧
    fixEnv.decodeRss htmlDoc = .error "expected element type <rss>" ∧
    fixEnv.decodeRdf htmlDoc = .error "expected element type <RDF>" ∧
    (ParseFeed fixEnv htmlDoc).feed = none ∧ (ParseFeed fixEnv htmlDoc).stories = [] ∧
    (ParseFeed fixEnv htmlDoc).log
      = [.atomParseError "expected element type <feed>",
         .xmlParseError "expected element type <rss>",
         .rdfParseError "expected element type <RDF>"] :=
  ⟨rfl, rfl, rfl, (C18_total_failure_diagnostics fixEnv htmlDoc).1 _ _ _ rfl rfl rfl⟩

/-- C19.  `ParseFeed` returns all or nothing, in document order: either no
feed and no stories, or a feed and as many stories as the decoded tree has
entries or items, the k-th of which is `parseFix` of what the loop body
returns for the k-th entry or item. -/
theorem C19_all_or_nothing (env : Env) (b : Bytes) :
    ((ParseFeed env b).feed = none ∧ (ParseFeed env b).stories = []) ∨
    ((ParseFeed env b).feed ≠ none ∧
      ((∃ a, env.decodeAtom b = .ok a ∧
          (ParseFeed env b).stories.length = a.Entry.length ∧
          ∀ (k : Nat) (i : AtomEntry), a.Entry[k]? = some i →
            (ParseFeed env b).stories[k]? = some (parseFixStory env (atomEntry env i))) ∨
       (∃ e r, env.decodeAtom b = .error e ∧ env.decodeRss b = .ok r ∧
          (ParseFeed env b).stories.length = r.Items.length ∧
          ∀ (k : Nat) (i : RssItem), r.Items[k]? = some i →
            ∃ st, (rssItem env { clock := (r.Items.take k).countP (rssDatesUnparsed env) } i).1
                = some st ∧
              (ParseFeed env b).stories[k]? = some (parseFixStory env st)) ∨
       (∃ e₁ e₂ rdf, env.decodeAtom b = .error e₁ ∧ env.decodeRss b = .error e₂ ∧
          env.decodeRdf b = .ok rdf ∧
          (ParseFeed env b).stories.length = rdf.Item.length ∧
          ∀ (k : Nat) (i : RdfItem), rdf.Item[k]? = some i →
            ∃ st, (rdfItem env {} i).1 = some st ∧
              (ParseFeed env b).stories[k]? = some (parseFixStory env st)))) := by
  have cA : (∃ a, env.decodeAtom b = .ok a) ∨ (∃ e, env.decodeAtom b = .error e) := by
    cases env.decodeAtom b with
    | ok a => exact Or.inl ⟨a, rfl⟩
    | error e => exact Or.inr ⟨e, rfl⟩
  have cR : (∃ r, env.decodeRss b = .ok r) ∨ (∃ e, env.decodeRss b = .error e) := by
    cases env.decodeRss b with
    | ok r => exact Or.inl ⟨r, rfl⟩
    | error e => exact Or.inr ⟨e, rfl⟩
  have cD : (∃ d, env.decodeRdf b = .ok d) ∨ (∃ e, env.decodeRdf b = .error e) := by
    cases env.decodeRdf b with
    | ok d => exact Or.inl ⟨d, rfl⟩
    | error e => exact Or.inr ⟨e, rfl⟩
  rcases cA with ⟨a, ha⟩ | ⟨e, ha⟩
  · right
    rw [ParseFeed_atom env b a ha]
    have g := atomBranch_stories env a
    refine ⟨by simp [g.1], Or.inl ⟨a, ha, by simp [g.2.1], ?_⟩⟩
    intro k i hi
    rw [g.2.1]
    simp [List.getElem?_map, hi]
  · rcases cR with ⟨r, hr⟩ | ⟨e₂, hr⟩
    · rw [ParseFeed_rss env b e r ha hr]
      by_cases hall : ∀ j ∈ r.Items, j.Title ≠ "" ∨ j.Description ≠ ""
      · right
        have g := rssBranch_guarded env r hall
        exact ⟨by simp [g.1], Or.inr (Or.inl ⟨e, r, ha, hr, g.2.1,
          fun k i hi => rssBranch_items env r hall k i hi⟩)⟩
      · left
        exact rssBranch_untitled env r (rssItems_unguarded r hall)
    · rcases cD with ⟨rdf, hd⟩ | ⟨e₃, hd⟩
      · rw [ParseFeed_rdf env b e e₂ rdf ha hr hd]
        by_cases hall : ∀ j ∈ rdf.Item, j.About ≠ "" ∨ j.Link ≠ ""
        · right
          have g := rdfBranch_guarded env rdf hall
          exact ⟨by simp [g.1], Or.inr (Or.inr ⟨e, e₂, rdf, ha, hr, hd, g.2.1,
            fun k i hi => rdfBranch_items env rdf hall k i hi⟩)⟩
        · left
          exact rdfBranch_noId env rdf (rdfItems_unguarded rdf hall)
      · left
        unfold ParseFeed
        simp [ha, hr, hd, returnNil]

/-- C20.  `parseFix` returns the feed it was given, and a story list of the
same length in which, position by position, a story that had a non-empty
`Link` is unchanged and every story keeps its `Id`, `Title`, `Author`,
`Published`, `Updated`, `Date`, content and `Summary`; a feed that is not `nil`
is returned as a feed that is not `nil`. -/
theorem C20_parseFix_frame (env : Env) (f : Option Feed) (ss : List Story) :
    (parseFix env f ss).1 = f ∧ (parseFix env f ss).2.length = ss.length ∧
    (∀ (k : Nat) (s : Story), ss[k]? = some s →
      ∃ s', (parseFix env f ss).2[k]? = some s' ∧
        (s.Link ≠ "" → s'.Link = s.Link ∧ s' = s) ∧
        s'.Id = s.Id ∧ s'.Title = s.Title ∧ s'.Author = s.Author ∧
        s'.Published = s.Published ∧ s'.Updated = s.Updated ∧ s'.Date = s.Date ∧
        s'.content = s.content ∧ s'.Summary = s.Summary) ∧
    (f ≠ none → (parseFix env f ss).1 ≠ none) := by
  refine ⟨rfl, by simp [parseFix], ?_, fun h => h⟩
  intro k s hk
  refine ⟨parseFixStory env s, by simp [parseFix, List.getElem?_map, hk], ?_,
    parseFixStory_frame env s⟩
  intro hl
  rw [parseFixStory_linked env s hl]
  exact ⟨rfl, rfl⟩

/-- C20, at a list of two stories: one with a link, one without. -/
theorem C20_parseFix_frame_witness :
    [linkedStory, spacedIdStory][0]? = some linkedStory ∧ linkedStory.Link ≠ "" ∧
    (parseFix fixEnv (some { Title := "A" }) [linkedStory, spacedIdStory])
      = (some { Title := "A" }, [linkedStory, { spacedIdStory with Link := "hello%20world" }]) ∧
    (parseFix fixEnv (some { Title := "A" }) [linkedStory, spacedIdStory]).1
      = some { Title := "A" } ∧
    (parseFix fixEnv (some { Title := "A" }) [linkedStory, spacedIdStory]).2.length = 2 :=
  ⟨rfl, by decide, by decide,
    (C20_parseFix_frame fixEnv (some { Title := "A" }) [linkedStory, spacedIdStory]).1,
    (C20_parseFix_frame fixEnv (some { Title := "A" }) [linkedStory, spacedIdStory]).2.1⟩

/-- C19, at `rssUndatedDoc` (a feed and three stories) and at
`rssUntitledDoc` (no feed and no stories, although two of three items are
well-formed). -/
theorem C19_all_or_nothing_witness :
    ((ParseFeed rssUndatedEnv rssUndatedDoc).feed = some { Title := "News" } ∧
      (ParseFeed rssUndatedEnv rssUndatedDoc).stories.length = rssUndatedTree.Items.length) ∧
    ((ParseFeed rssUntitledEnv rssUntitledDoc).feed = none ∧
      (ParseFeed rssUntitledEnv rssUntitledDoc).stories = []) ∧
    (((ParseFeed rssUntitledEnv rssUntitledDoc).feed = none ∧
        (ParseFeed rssUntitledEnv rssUntitledDoc).stories = []) ∨
      (ParseFeed rssUntitledEnv rssUntitledDoc).feed ≠ none) :=
  ⟨by decide, by decide,
    (C19_all_or_nothing rssUntitledEnv rssUntitledDoc).imp id (fun h => h.1)⟩

/-! ## `time.Parse` reads what is written in the layout -/

theorem isDigit_digitChar : ∀ k, k < 10 → isDigit (digitChar k) = true := by decide

theorem digitVal_digitChar : ∀ k, k < 10 → digitVal (digitChar k) = k := by decide

theorem getnum_pad2 (n : Nat) (hn : n < 100) (rest : List Char) (fixed : Bool) :
    getnum (pad2 n ++ rest) fixed = some (n, rest) := by
  have h1 : n / 10 < 10 := by omega
  have h2 : n % 10 < 10 := by omega
  simp only [pad2, getnum, List.cons_append, List.nil_append, isDigit_digitChar _ h1,
    isDigit_digitChar _ h2, digitVal_digitChar _ h1, digitVal_digitChar _ h2, if_true]
  congr 2
  omega

theorem parseLongYear_pad4 (n : Nat) (hn : n < 10000) (rest : List Char) :
    parseLongYear (pad4 n ++ rest) = some (n, rest) := by
  have h1 : n / 1000 < 10 := by omega
  have h2 : n / 100 % 10 < 10 := by omega
  have h3 : n / 10 % 10 < 10 := by omega
  have h4 : n % 10 < 10 := by omega
  simp only [pad4, parseLongYear, List.cons_append, List.nil_append, isDigit_digitChar _ h1,
    isDigit_digitChar _ h2, isDigit_digitChar _ h3, isDigit_digitChar _ h4,
    digitVal_digitChar _ h1, digitVal_digitChar _ h2, digitVal_digitChar _ h3,
    digitVal_digitChar _ h4, Bool.and_self, if_true]
  congr 2
  omega

theorem skipChar_cons (c : Char) (s : List Char) : skipChar c (c :: s) = some s := by
  simp [skipChar]

theorem parseFraction_sign (east : Bool) (rest : List Char) :
    parseFraction ((if east then '+' else '-') :: rest)
      = (0, (if east then '+' else '-') :: rest) := by
  cases rest with
  | nil => rfl
  | cons d rest' =>
    cases east
    · have h : ¬ (('-' : Char) = '.' ∨ ('-' : Char) = ',') := by decide
      simp [parseFraction, h]
    · have h : ¬ (('+' : Char) = '.' ∨ ('+' : Char) = ',') := by decide
      simp [parseFraction, h]

theorem parseNumColonTZ_pad (east : Bool) (zh zm : Nat) (hzh : zh ≤ 24) (hzm : zm ≤ 60) :
    parseNumColonTZ ((if east then '+' else '-') :: (pad2 zh ++ ':' :: pad2 zm))
      = some (zoneSeconds east zh zm, []) := by
  have g1 := getnum_pad2 zh (by omega) [] true
  have g2 := getnum_pad2 zm (by omega) [] true
  simp only [pad2, List.cons_append, List.nil_append] at g1 g2
  have hm : ¬ (('-' : Char) = '+') := by decide
  have c1 : ¬ (zh > 24 ∨ zm > 60) := by omega
  simp only [parseNumColonTZ, pad2, List.cons_append, List.nil_append, g1, g2, ne_eq,
    not_true_eq_false, if_false, c1]
  cases east
  · simp only [Bool.false_eq_true, if_false, hm, zoneSeconds, if_true]
  · simp only [if_true, zoneSeconds]

/-- `time.Parse` with the layout of `atomDateFormat` returns, for a date and
time written in this layout, the instant that is written. -/
theorem parseAtomLayout_format (year month day hour min sec : Nat) (east : Bool) (zh zm : Nat)
    (hy : year < 10000) (hm1 : 1 ≤ month) (hm2 : month ≤ 12) (hd1 : 1 ≤ day)
    (hd2 : day ≤ daysIn month year) (hh : hour < 24) (hmin : min < 60) (hs : sec < 60)
    (hzh : zh ≤ 24) (hzm : zm ≤ 60) :
    parseAtomLayout (formatAtomLayout year month day hour min sec east zh zm)
      = some (dateWithOffset year month day hour min sec 0 (zoneSeconds east zh zm)) := by
  have hday : day < 100 := by
    have : daysIn month year ≤ 31 := by
      unfold daysIn
      split
      · split <;> omega
      · split <;> omega
    omega
  have hpf := parseFraction_sign east (pad2 zh ++ ':' :: pad2 zm)
  have htz := parseNumColonTZ_pad east zh zm hzh hzm
  have c1 : ¬ (month = 0 ∨ 12 < month) := by omega
  have c2 : ¬ (24 ≤ hour) := by omega
  have c3 : ¬ (60 ≤ min) := by omega
  have c4 : ¬ (60 ≤ sec) := by omega
  have c5 : ¬ (day < 1 ∨ daysIn month year < day) := by omega
  unfold parseAtomLayout formatAtomLayout
  simp only [List.append_assoc, List.cons_append]
  rw [parseLongYear_pad4 year hy]
  simp only [Option.some_bind, skipChar_cons]
  rw [getnum_pad2 month (by omega)]
  simp only [Option.some_bind, skipChar_cons, c1, if_false]
  rw [getnum_pad2 day hday]
  simp only [Option.some_bind, skipChar_cons]
  rw [getnum_pad2 hour (by omega)]
  simp only [Option.some_bind, skipChar_cons, c2, if_false]
  rw [getnum_pad2 min (by omega)]
  simp only [Option.some_bind, skipChar_cons, c3, if_false]
  rw [getnum_pad2 sec (by omega)]
  simp only [Option.some_bind, c4, if_false, hpf]
  rw [htz]
  simp only [Option.some_bind, ne_eq, not_true_eq_false, if_false, c5]

/-! ## `time.Parse` accepts what is written, and nothing else -/

theorem isDigit_bounds (c : Char) (h : isDigit c = true) : 48 ≤ c.toNat ∧ c.toNat ≤ 57 := by
  unfold isDigit at h
  simp only [Bool.and_eq_true, decide_eq_true_eq] at h
  obtain ⟨h1, h2⟩ := h
  have a : ('0' : Char).toNat ≤ c.toNat := h1
  have b : c.toNat ≤ ('9' : Char).toNat := h2
  exact ⟨a, b⟩

theorem digitChar_digitVal (c : Char) (h : isDigit c = true) :
    digitChar (digitVal c) = c ∧ digitVal c < 10 := by
  obtain ⟨h1, h2⟩ := isDigit_bounds c h
  have e : ('0' : Char).toNat = 48 := rfl
  unfold digitChar digitVal
  rw [e]
  refine ⟨?_, by omega⟩
  have : 48 + (c.toNat - 48) = c.toNat := by omega
  rw [this]
  exact Char.ofNat_toNat c

theorem pad2_of_digits (a b : Char) (ha : isDigit a = true) (hb : isDigit b = true) :
    digitVal a * 10 + digitVal b < 100 ∧ pad2 (digitVal a * 10 + digitVal b) = [a, b] := by
  obtain ⟨ea, la⟩ := digitChar_digitVal a ha
  obtain ⟨eb, lb⟩ := digitChar_digitVal b hb
  refine ⟨by omega, ?_⟩
  unfold pad2
  have h1 : (digitVal a * 10 + digitVal b) / 10 = digitVal a := by omega
  have h2 : (digitVal a * 10 + digitVal b) % 10 = digitVal b := by omega
  rw [h1, h2, ea, eb]

theorem getnum_fixed_inv (s : List Char) (n : Nat) (rest : List Char)
    (h : getnum s true = some (n, rest)) : n < 100 ∧ s = pad2 n ++ rest := by
  unfold getnum at h
  cases s with
  | nil => simp at h
  | cons a t =>
    cases t with
    | nil =>
      by_cases ha : isDigit a = true <;> simp [ha] at h
    | cons b t' =>
      by_cases ha : isDigit a = true
      · by_cases hb : isDigit b = true
        · simp only [ha, hb, if_true, Option.some.injEq, Prod.mk.injEq] at h
          obtain ⟨hn, hr⟩ := h
          obtain ⟨hlt, hp⟩ := pad2_of_digits a b ha hb
          subst hn hr
          exact ⟨hlt, by rw [hp]; rfl⟩
        · simp [ha, hb] at h
      · simp [ha] at h

theorem getnum_free_inv (s : List Char) (n : Nat) (rest : List Char)
    (h : getnum s false = some (n, rest)) :
    n < 100 ∧ ((s = pad2 n ++ rest) ∨ (n < 10 ∧ s = digitChar n :: rest)) := by
  unfold getnum at h
  cases s with
  | nil => simp at h
  | cons a t =>
    by_cases ha : isDigit a = true
    · obtain ⟨ea, la⟩ := digitChar_digitVal a ha
      cases t with
      | nil =>
        simp only [ha, if_true, Bool.false_eq_true, if_false, Option.some.injEq,
          Prod.mk.injEq] at h
        obtain ⟨hn, hr⟩ := h
        subst hn hr
        exact ⟨by omega, Or.inr ⟨la, by rw [ea]⟩⟩
      | cons b t' =>
        by_cases hb : isDigit b = true
        · simp only [ha, hb, if_true, Option.some.injEq, Prod.mk.injEq] at h
          obtain ⟨hn, hr⟩ := h
          obtain ⟨hlt, hp⟩ := pad2_of_digits a b ha hb
          subst hn hr
          exact ⟨hlt, Or.inl (by rw [hp]; rfl)⟩
        · simp only [ha, hb, if_true, Bool.false_eq_true, if_false, Option.some.injEq,
            Prod.mk.injEq] at h
          obtain ⟨hn, hr⟩ := h
          subst hn hr
          exact ⟨by omega, Or.inr ⟨la, by rw [ea]⟩⟩
    · simp [ha] at h

theorem parseLongYear_inv (s : List Char) (n : Nat) (rest : List Char)
    (h : parseLongYear s = some (n, rest)) : n < 10000 ∧ s = pad4 n ++ rest := by
  unfold parseLongYear at h
  match s, h with
  | a :: b :: c :: d :: t, h =>
    by_cases hd : (isDigit a && isDigit b && isDigit c && isDigit d) = true
    · simp only [hd, if_true, Option.some.injEq, Prod.mk.injEq] at h
      simp only [Bool.and_eq_true] at hd
      obtain ⟨⟨⟨ha, hb⟩, hc⟩, hdd⟩ := hd
      obtain ⟨ea, la⟩ := digitChar_digitVal a ha
      obtain ⟨eb, lb⟩ := digitChar_digitVal b hb
      obtain ⟨ec, lc⟩ := digitChar_digitVal c hc
      obtain ⟨ed, ld⟩ := digitChar_digitVal d hdd
      obtain ⟨hn, hr⟩ := h
      subst hn hr
      refine ⟨by omega, ?_⟩
      unfold pad4
      have h1 : (((digitVal a * 10 + digitVal b) * 10 + digitVal c) * 10 + digitVal d) / 1000
          = digitVal a := by omega
      have h2 : (((digitVal a * 10 + digitVal b) * 10 + digitVal c) * 10 + digitVal d) / 100 % 10
          = digitVal b := by omega
      have h3 : (((digitVal a * 10 + digitVal b) * 10 + digitVal c) * 10 + digitVal d) / 10 % 10
          = digitVal c := by omega
      have h4 : (((digitVal a * 10 + digitVal b) * 10 + digitVal c) * 10 + digitVal d) % 10
          = digitVal d := by omega
      rw [h1, h2, h3, h4, ea, eb, ec, ed]
      rfl
    · simp [hd] at h

theorem skipChar_inv (c : Char) (s rest : List Char) (h : skipChar c s = some rest) :
    s = c :: rest := by
  unfold skipChar at h
  cases s with
  | nil => simp at h
  | cons x t =>
    by_cases hx : x = c
    · simp only [hx, if_true, Option.some.injEq] at h
      rw [hx, h]
    · simp [hx] at h

theorem parseFraction_inv (s : List Char) :
    ∃ fr, fracValid fr = true ∧ s = fracChars fr ++ (parseFraction s).2 ∧
      (parseFraction s).1 = fracNanos fr := by
  unfold parseFraction
  match s with
  | [] => exact ⟨none, rfl, rfl, rfl⟩
  | [p] => exact ⟨none, rfl, rfl, rfl⟩
  | p :: d :: rest =>
    by_cases hc : (p = '.' ∨ p = ',') ∧ isDigit d = true
    · simp only [hc, and_self, if_true]
      refine ⟨some (p, (d :: rest).takeWhile isDigit), ?_, ?_, rfl⟩
      · have hne : ((d :: rest).takeWhile isDigit).isEmpty = false := by
          simp [List.takeWhile_cons, hc.2]
        have hall : ((d :: rest).takeWhile isDigit).all isDigit = true := by
          rw [List.all_eq_true]
          intro x hx
          exact List.mem_takeWhile_imp hx
        have hp : (p == '.' || p == ',') = true := by
          rcases hc.1 with h | h <;> simp [h]
        simp only [fracValid, hp, hne, hall, Bool.not_false, Bool.and_self]
      · simp only [fracChars, List.cons_append, List.takeWhile_append_dropWhile]
    · simp only [hc, if_false]
      exact ⟨none, rfl, rfl, rfl⟩

theorem parseNumColonTZ_inv (s : List Char) (off : Int) (rest : List Char)
    (h : parseNumColonTZ s = some (off, rest)) :
    ∃ (east : Bool) (zh zm : Nat), zh ≤ 24 ∧ zm ≤ 60 ∧ off = zoneSeconds east zh zm ∧
      s = (if east then '+' else '-') :: (pad2 zh ++ ':' :: (pad2 zm ++ rest)) := by
  unfold parseNumColonTZ at h
  match s, h with
  | sign :: h₁ :: h₂ :: colon :: m₁ :: m₂ :: t, h =>
    by_cases hcol : colon = ':'
    · subst hcol
      simp only [ne_eq, not_true_eq_false, if_false] at h
      cases g1 : getnum [h₁, h₂] true with
      | none => simp [g1] at h
      | some p1 =>
        cases g2 : getnum [m₁, m₂] true with
        | none => simp [g1, g2] at h
        | some p2 =>
          obtain ⟨hr, r1⟩ := p1
          obtain ⟨mm, r2⟩ := p2
          obtain ⟨-, e1⟩ := getnum_fixed_inv _ _ _ g1
          obtain ⟨-, e2⟩ := getnum_fixed_inv _ _ _ g2
          have l1 : r1 = [] := by
            have := congrArg List.length e1
            simpa [pad2] using this
          have l2 : r2 = [] := by
            have := congrArg List.length e2
            simpa [pad2] using this
          subst l1 l2
          simp only [List.append_nil] at e1 e2
          simp only [g1, g2] at h
          by_cases hrange : hr > 24 ∨ mm > 60
          · simp [hrange] at h
          · simp only [hrange, if_false] at h
            by_cases hplus : sign = '+'
            · simp only [hplus, if_true, Option.some.injEq, Prod.mk.injEq] at h
              refine ⟨true, hr, mm, by omega, by omega, ?_, ?_⟩
              · simp [zoneSeconds, ← h.1]
              · simp only [if_true, hplus, ← h.2]
                have e1' : [h₁, h₂] = pad2 hr := e1
                have e2' : [m₁, m₂] = pad2 mm := e2
                rw [← e1', ← e2']
                rfl
            · by_cases hminus : sign = '-'
              · simp only [hplus, hminus, if_true, if_false, Option.some.injEq,
                  Prod.mk.injEq] at h
                have hne : ¬ (('-' : Char) = '+') := by decide
                simp only [hminus, hne, if_false, if_true, Option.some.injEq,
                  Prod.mk.injEq] at h
                refine ⟨false, hr, mm, by omega, by omega, ?_, ?_⟩
                · simp [zoneSeconds, ← h.1]
                · simp only [Bool.false_eq_true, if_false, hminus, ← h.2]
                  have e1' : [h₁, h₂] = pad2 hr := e1
                  have e2' : [m₁, m₂] = pad2 mm := e2
                  rw [← e1', ← e2']
                  rfl
              · simp [hplus, hminus] at h
    · simp [hcol] at h
  | [], h => simp at h
  | [_], h => simp at h
  | [_, _], h => simp at h
  | [_, _, _], h => simp at h
  | [_, _, _, _], h => simp at h
  | [_, _, _, _, _], h => simp at h

theorem takeWhile_digits_append (ds : List Char) (x : Char) (rest : List Char)
    (hds : ds.all isDigit = true) (hx : isDigit x = false) :
    (ds ++ x :: rest).takeWhile isDigit = ds ∧ (ds ++ x :: rest).dropWhile isDigit = x :: rest := by
  induction ds with
  | nil => simp [List.takeWhile_cons, List.dropWhile_cons, hx]
  | cons d t ih =>
    simp only [List.all_cons, Bool.and_eq_true] at hds
    obtain ⟨i1, i2⟩ := ih hds.2
    simp [List.takeWhile_cons, List.dropWhile_cons, hds.1, i1, i2]

theorem isDigit_sign (east : Bool) : isDigit (if east then '+' else '-') = false := by
  cases east <;> decide

theorem parseFraction_written (fr : Option (Char × List Char)) (hv : fracValid fr = true)
    (east : Bool) (rest : List Char) :
    parseFraction (fracChars fr ++ (if east then '+' else '-') :: rest)
      = (fracNanos fr, (if east then '+' else '-') :: rest) := by
  match fr, hv with
  | none, _ => exact parseFraction_sign east rest
  | some (p, ds), hv =>
    simp only [fracValid, Bool.and_eq_true, Bool.or_eq_true, beq_iff_eq,
      Bool.not_eq_true'] at hv
    obtain ⟨⟨hp, hne⟩, hall⟩ := hv
    cases ds with
    | nil => simp at hne
    | cons d t =>
      have hd : isDigit d = true := by
        simp only [List.all_cons, Bool.and_eq_true] at hall
        exact hall.1
      obtain ⟨i1, i2⟩ := takeWhile_digits_append (d :: t) _ rest hall (isDigit_sign east)
      simp only [List.cons_append] at i1 i2
      simp only [fracChars, fracNanos, parseFraction, List.cons_append, hp, hd, and_self,
        if_true, i1, i2]

theorem getnum_short (h : Nat) (hh : h < 10) (rest : List Char) :
    getnum (digitChar h :: ':' :: rest) false = some (h, ':' :: rest) := by
  have hc : isDigit ':' = false := by decide
  simp [getnum, isDigit_digitChar h hh, digitVal_digitChar h hh, hc]

theorem AtomWritten.valid_iff (w : AtomWritten) :
    w.valid = true ↔
      w.year < 10000 ∧ 1 ≤ w.month ∧ w.month ≤ 12 ∧ 1 ≤ w.day ∧ w.day ≤ daysIn w.month w.year ∧
      w.hour < 24 ∧ (w.shortHour = true → w.hour < 10) ∧ w.min < 60 ∧ w.sec < 60 ∧
      w.zh ≤ 24 ∧ w.zm ≤ 60 ∧ fracValid w.frac = true := by
  unfold AtomWritten.valid
  simp only [Bool.and_eq_true, decide_eq_true_eq, Bool.or_eq_true, Bool.not_eq_true']
  constructor
  · rintro ⟨⟨⟨⟨⟨⟨⟨⟨⟨⟨⟨h1, h2⟩, h3⟩, h4⟩, h5⟩, h6⟩, h7⟩, h8⟩, h9⟩, h10⟩, h11⟩, h12⟩
    refine ⟨h1, h2, h3, h4, h5, h6, ?_, h8, h9, h10, h11, h12⟩
    intro hs
    rcases h7 with h7 | h7
    · rw [hs] at h7
      cases h7
    · exact h7
  · rintro ⟨h1, h2, h3, h4, h5, h6, h7, h8, h9, h10, h11, h12⟩
    refine ⟨⟨⟨⟨⟨⟨⟨⟨⟨⟨⟨h1, h2⟩, h3⟩, h4⟩, h5⟩, h6⟩, ?_⟩, h8⟩, h9⟩, h10⟩, h11⟩, h12⟩
    cases hs : w.shortHour
    · exact Or.inl rfl
    · exact Or.inr (h7 hs)

theorem daysIn_le (month year : Nat) : daysIn month year ≤ 31 := by
  unfold daysIn
  split
  · split <;> omega
  · split <;> omega

/-- `time.Parse` with the layout of `atomDateFormat` accepts every string
that is written as `AtomWritten.chars` describes and returns the written
instant. -/
theorem parseAtomLayout_written (w : AtomWritten) (hv : w.valid = true) :
    parseAtomLayout (String.mk w.chars) = some w.time := by
  obtain ⟨hy, hm1, hm2, hd1, hd2, hh, hsh, hmin, hs, hzh, hzm, hfr⟩ := (w.valid_iff).mp hv
  have hday : w.day < 100 := by
    have := daysIn_le w.month w.year
    omega
  have hpf := parseFraction_written w.frac hfr w.east (pad2 w.zh ++ ':' :: pad2 w.zm)
  have htz := parseNumColonTZ_pad w.east w.zh w.zm hzh hzm
  have c1 : ¬ (w.month = 0 ∨ 12 < w.month) := by omega
  have c2 : ¬ (24 ≤ w.hour) := by omega
  have c3 : ¬ (60 ≤ w.min) := by omega
  have c4 : ¬ (60 ≤ w.sec) := by omega
  have c5 : ¬ (w.day < 1 ∨ daysIn w.month w.year < w.day) := by omega
  have hhour : ∀ rest : List Char,
      getnum ((if w.shortHour = true then [digitChar w.hour] else pad2 w.hour) ++ ':' :: rest)
        false = some (w.hour, ':' :: rest) := by
    intro rest
    cases hs' : w.shortHour
    · simp only [Bool.false_eq_true, if_false]
      exact getnum_pad2 w.hour (by omega) _ false
    · simp only [if_true, List.cons_append, List.nil_append]
      exact getnum_short w.hour (hsh hs') rest
  unfold parseAtomLayout AtomWritten.chars AtomWritten.time
  simp only [List.append_assoc, List.cons_append]
  rw [parseLongYear_pad4 w.year hy]
  simp only [Option.some_bind, skipChar_cons]
  rw [getnum_pad2 w.month (by omega)]
  simp only [Option.some_bind, skipChar_cons, c1, if_false]
  rw [getnum_pad2 w.day hday]
  simp only [Option.some_bind, skipChar_cons]
  rw [hhour]
  simp only [Option.some_bind, skipChar_cons, c2, if_false]
  rw [getnum_pad2 w.min (by omega)]
  simp only [Option.some_bind, skipChar_cons, c3, if_false]
  rw [getnum_pad2 w.sec (by omega)]
  simp only [Option.some_bind, c4, if_false, hpf]
  rw [htz]
  simp only [Option.some_bind, ne_eq, not_true_eq_false, if_false, c5]

/-- `time.Parse` with the layout of `atomDateFormat` accepts only strings
that are written as `AtomWritten.chars` describes. -/
theorem parseAtomLayout_inv (d : String) (t : Time) (h : parseAtomLayout d = some t) :
    ∃ w : AtomWritten, w.valid = true ∧ d.data = w.chars ∧ t = w.time := by
  unfold parseAtomLayout at h
  obtain ⟨⟨year, s1⟩, hyear, h⟩ := Option.bind_eq_some.mp h
  simp only at h
  obtain ⟨s2, hs2, h⟩ := Option.bind_eq_some.mp h
  obtain ⟨⟨month, s3⟩, hmonth, h⟩ := Option.bind_eq_some.mp h
  simp only at h
  by_cases c1 : month = 0 ∨ 12 < month
  · rw [if_pos c1] at h
    cases h
  rw [if_neg c1] at h
  obtain ⟨s4, hs4, h⟩ := Option.bind_eq_some.mp h
  obtain ⟨⟨day, s5⟩, hdayp, h⟩ := Option.bind_eq_some.mp h
  simp only at h
  obtain ⟨s6, hs6, h⟩ := Option.bind_eq_some.mp h
  obtain ⟨⟨hour, s7⟩, hhour, h⟩ := Option.bind_eq_some.mp h
  simp only at h
  by_cases c2 : 24 ≤ hour
  · rw [if_pos c2] at h
    cases h
  rw [if_neg c2] at h
  obtain ⟨s8, hs8, h⟩ := Option.bind_eq_some.mp h
  obtain ⟨⟨min, s9⟩, hminp, h⟩ := Option.bind_eq_some.mp h
  simp only at h
  by_cases c3 : 60 ≤ min
  · rw [if_pos c3] at h
    cases h
  rw [if_neg c3] at h
  obtain ⟨s10, hs10, h⟩ := Option.bind_eq_some.mp h
  obtain ⟨⟨sec, s11⟩, hsecp, h⟩ := Option.bind_eq_some.mp h
  simp only at h
  by_cases c4 : 60 ≤ sec
  · rw [if_pos c4] at h
    cases h
  rw [if_neg c4] at h
  obtain ⟨⟨off, rest⟩, htz, h⟩ := Option.bind_eq_some.mp h
  simp only at h
  by_cases c6 : rest ≠ []
  · rw [if_pos c6] at h
    cases h
  rw [if_neg c6] at h
  by_cases c5 : day < 1 ∨ daysIn month year < day
  · rw [if_pos c5] at h
    cases h
  rw [if_neg c5] at h
  have hrest : rest = [] := by
    by_contra hne
    exact c6 hne
  subst hrest
  obtain ⟨ly, ey⟩ := parseLongYear_inv _ _ _ hyear
  have e2 := skipChar_inv _ _ _ hs2
  obtain ⟨-, e3⟩ := getnum_fixed_inv _ _ _ hmonth
  have e4 := skipChar_inv _ _ _ hs4
  obtain ⟨-, e5⟩ := getnum_fixed_inv _ _ _ hdayp
  have e6 := skipChar_inv _ _ _ hs6
  obtain ⟨-, e7⟩ := getnum_free_inv _ _ _ hhour
  have e8 := skipChar_inv _ _ _ hs8
  obtain ⟨-, e9⟩ := getnum_fixed_inv _ _ _ hminp
  have e10 := skipChar_inv _ _ _ hs10
  obtain ⟨-, e11⟩ := getnum_fixed_inv _ _ _ hsecp
  obtain ⟨fr, hfr, efr, nfr⟩ := parseFraction_inv s11
  obtain ⟨east, zh, zm, hzh, hzm, eoff, etz⟩ := parseNumColonTZ_inv _ _ _ htz
  have hshort : ∃ sh : Bool, (sh = true → hour < 10) ∧
      s6 = (if sh then [digitChar hour] else pad2 hour) ++ s7 := by
    rcases e7 with e7 | ⟨hlt, e7⟩
    · exact ⟨false, by simp, by simpa using e7⟩
    · exact ⟨true, fun _ => hlt, by simpa using e7⟩
  obtain ⟨sh, hsh, e7'⟩ := hshort
  refine ⟨{ year := year, month := month, day := day, hour := hour, min := min, sec := sec,
            shortHour := sh, frac := fr, east := east, zh := zh, zm := zm }, ?_, ?_, ?_⟩
  · rw [AtomWritten.valid_iff]
    dsimp only
    exact ⟨ly, by omega, by omega, by omega, by omega, by omega, hsh, by omega, by omega,
      hzh, hzm, hfr⟩
  · simp only [AtomWritten.chars]
    rw [ey, e2, e3, e4, e5, e6, e7', e8, e9, e10, e11, efr, etz]
    simp only [List.append_assoc, List.cons_append, List.append_nil, List.nil_append]
  · simp only [Option.some.injEq] at h
    rw [← h, nfr, eoff]
    rfl

theorem AtomWritten.time_ne_zero (w : AtomWritten) : w.time ≠ Time.zero := by
  intro h
  have := congrArg Time.loc h
  simp [AtomWritten.time, dateWithOffset, Time.zero] at this

theorem ParseAtomDate_model (env : Env) (henv : env.timeParse = goTimeParse) (d : String) :
    ParseAtomDate env d = (parseAtomLayout d).getD Time.zero := by
  unfold ParseAtomDate
  rw [henv]
  simp only [goTimeParse, if_true]
  cases parseAtomLayout d <;> rfl

/-- C16 (counterexample).  The string `2020-01-01T7:05:09+05:30` does not
match the layout `2006-01-02T15:04:05-07:00`: its hour has one digit and it is
one character shorter than the layout.  `ParseAtomDate` returns for it the
instant 2020-01-01T01:35:09Z, not the zero time.  The same holds for
`2020-01-01T00:00:00.5+00:00`, which has a fractional second that the layout
has not. -/
theorem C16_strings_outside_the_layout_are_parsed :
    atomDateFormat.length = 25 ∧ "2020-01-01T7:05:09+05:30".length = 24 ∧
    ParseAtomDate timeEnv "2020-01-01T7:05:09+05:30"
      = { sec := 63713439309, loc := some 19800 } ∧
    (ParseAtomDate timeEnv "2020-01-01T7:05:09+05:30").Unix = 1577842509 ∧
    ParseAtomDate timeEnv "2020-01-01T7:05:09+05:30" ≠ Time.zero ∧
    "2020-01-01T00:00:00.5+00:00".length = 27 ∧
    ParseAtomDate timeEnv "2020-01-01T00:00:00.5+00:00"
      = { sec := 63713433600, nsec := 500000000, loc := some 0 } ∧
    ParseAtomDate timeEnv "2020-01-01T00:00:00.5+00:00" ≠ Time.zero := by
  decide

/-- C16 (amended).  `ParseAtomDate` is total and returns the zero time
exactly when `time.Parse` rejects the string.  With `time.Parse` as modelled:
for every string written in the layout `2006-01-02T15:04:05-07:00`, also with
an hour of one digit or with a fractional second after the seconds, it
returns the instant that is written, which is not the zero time; for every
other string it returns the zero time, as for the empty string and for a time
with the suffix `Z`; for `2020-01-01T00:00:00+00:00` the Unix seconds of the
result are `1577836800`. -/
theorem C16_ParseAtomDate_written_or_zero (env : Env) (henv : env.timeParse = goTimeParse) :
    (∀ w : AtomWritten, w.valid = true →
      ParseAtomDate env (String.mk w.chars) = w.time ∧ w.time ≠ Time.zero) ∧
    (∀ d : String,
      (∃ w : AtomWritten, w.valid = true ∧ d.data = w.chars ∧ ParseAtomDate env d = w.time) ∨
      ((¬ ∃ w : AtomWritten, w.valid = true ∧ d.data = w.chars) ∧
        env.timeParse atomDateFormat d = none ∧ ParseAtomDate env d = Time.zero)) ∧
    (∀ (year month day hour min sec : Nat) (east : Bool) (zh zm : Nat),
      year < 10000 → 1 ≤ month → month ≤ 12 → 1 ≤ day → day ≤ daysIn month year →
      hour < 24 → min < 60 → sec < 60 → zh ≤ 24 → zm ≤ 60 →
      ParseAtomDate env (formatAtomLayout year month day hour min sec east zh zm)
        = dateWithOffset year month day hour min sec 0 (zoneSeconds east zh zm)) ∧
    (ParseAtomDate env "2020-01-01T00:00:00+00:00").Unix = 1577836800 ∧
    ParseAtomDate env "" = Time.zero ∧
    ParseAtomDate env "2020-01-01T00:00:00Z" = Time.zero := by
  refine ⟨?_, ?_, ?_, ?_, ?_, ?_⟩
  · intro w hv
    rw [ParseAtomDate_model env henv, parseAtomLayout_written w hv]
    exact ⟨rfl, w.time_ne_zero⟩
  · intro d
    cases hp : parseAtomLayout d with
    | some t =>
      left
      obtain ⟨w, hv, hd, ht⟩ := parseAtomLayout_inv d t hp
      refine ⟨w, hv, hd, ?_⟩
      rw [ParseAtomDate_model env henv, hp, ht]
      rfl
    | none =>
      right
      refine ⟨?_, ?_, ?_⟩
      · rintro ⟨w, hv, hd⟩
        have hw := parseAtomLayout_written w hv
        have hd' : d = String.mk w.chars := by
          cases d
          simp only at hd
          rw [hd]
        rw [← hd', hp] at hw
        cases hw
      · rw [henv]
        simp [goTimeParse, hp]
      · rw [ParseAtomDate_model env henv, hp]
        rfl
  · intro year month day hour min sec east zh zm hy hm1 hm2 hd1 hd2 hh hmin hs hzh hzm
    rw [ParseAtomDate_model env henv,
      parseAtomLayout_format year month day hour min sec east zh zm hy hm1 hm2 hd1 hd2
        hh hmin hs hzh hzm]
    rfl
  · rw [ParseAtomDate_model env henv]
    decide
  · rw [ParseAtomDate_model env henv]
    decide
  · rw [ParseAtomDate_model env henv]
    decide

/-- C16 (amended), at the modelled `time.Parse` and two written strings: one
with an hour of one digit, one with half a second after the seconds. -/
theorem C16_ParseAtomDate_written_or_zero_witness :
    timeEnv.timeParse = goTimeParse ∧
    String.mk shortHourWritten.chars = "2020-01-01T7:05:09+05:30" ∧
    shortHourWritten.valid = true ∧
    shortHourWritten.time = { sec := 63713439309, loc := some 19800 } ∧
    (ParseAtomDate timeEnv (String.mk shortHourWritten.chars) = shortHourWritten.time ∧
      shortHourWritten.time ≠ Time.zero) ∧
    String.mk halfSecondWritten.chars = "2020-01-01T00:00:00.5+00:00" ∧
    halfSecondWritten.valid = true ∧
    halfSecondWritten.time = { sec := 63713433600, nsec := 500000000, loc := some 0 } ∧
    (ParseAtomDate timeEnv (String.mk halfSecondWritten.chars) = halfSecondWritten.time ∧
      halfSecondWritten.time ≠ Time.zero) ∧
    (ParseAtomDate timeEnv "2020-01-01T00:00:00+00:00").Unix = 1577836800 ∧
    ParseAtomDate timeEnv "yesterday" = Time.zero :=
  ⟨rfl, by decide, by decide, by decide,
    (C16_ParseAtomDate_written_or_zero timeEnv rfl).1 shortHourWritten (by decide),
    by decide, by decide, by decide,
    (C16_ParseAtomDate_written_or_zero timeEnv rfl).1 halfSecondWritten (by decide),
    (C16_ParseAtomDate_written_or_zero timeEnv rfl).2.2.2.1, by decide⟩

end Goread
